import Mathlib

/-!
Verification development for the `flat_bom_generator` InvenTree plugin core
(`bom_traversal.py` and `categorization.py`).

The Python core is shallowly embedded: Python floats become `ℚ`, Python
`None`-able values become `Option`, Python dicts keyed by part id become
association lists, exceptions become `Except`, and the unbounded recursion of
`traverse_bom` is driven by an explicit fuel parameter (the orchestration entry
point supplies fuel `db.parts.length + 1`, which can never be exhausted before
the visited-set check fires, since the visited set grows by one database part
id per level).  The mutable attributes that the Python code stores on the
`deduplicate_and_sum` function object (`ifab_units`, `enable_ifab_cuts`,
`ctl_warnings`) become an explicit `DedupState` value threaded through calls.
-/

namespace FlatBom

/-- Python truthiness of an optional integer: `None` and `0` are falsy. -/
def pyTruthyNat : Option Nat → Bool
  | none => false
  | some n => n != 0

/-- Python truthiness of an optional string: `None` and `""` are falsy. -/
def pyTruthyStr : Option String → Bool
  | none => false
  | some s => s != ""

/-- Python `category_mappings.get(key, [])` on the configuration dict. -/
def cmGet (category_mappings : List (String × List Nat)) (key : String) : List Nat :=
  (category_mappings.lookup key).getD []

/-! ## Length extraction (`categorization.py`, `_extract_length_from_notes`)

The Python code uses `re.search(r"\d+\.?\d*|\.\d+", notes.strip())` and
converts the first match with `float`.  We implement the same leftmost search:
at the first position where either a digit starts (greedy `\d+\.?\d*`) or a
dot directly followed by a digit starts (`\.\d+`), the greedy match is taken.
-/

/-- Value of a list of decimal digit characters. -/
def digitsVal (ds : List Char) : Nat :=
  ds.foldl (fun a c => a * 10 + (c.toNat - '0'.toNat)) 0

/-- Rational value of a matched number token (digits, optional dot, digits). -/
def parseNumChars (m : List Char) : ℚ :=
  let intPart := m.takeWhile (fun c => c ≠ '.')
  let rest := m.dropWhile (fun c => c ≠ '.')
  let frac := match rest with
    | '.' :: fs => fs
    | _ => []
  (digitsVal intPart : ℚ) + (digitsVal frac : ℚ) / ((10 : ℚ) ^ frac.length)

/-- Greedy match of `\d+\.?\d*|\.\d+` anchored at the head of `cs`. -/
def matchNumberAt (cs : List Char) : Option (List Char) :=
  match cs with
  | [] => none
  | c :: rest =>
    if c.isDigit then
      let ds := (c :: rest).takeWhile Char.isDigit
      let rest1 := (c :: rest).dropWhile Char.isDigit
      match rest1 with
      | '.' :: rest2 => some (ds ++ '.' :: rest2.takeWhile Char.isDigit)
      | _ => some ds
    else if c = '.' then
      match rest with
      | d :: _ => if d.isDigit then some ('.' :: rest.takeWhile Char.isDigit) else none
      | [] => none
    else none

/-- Leftmost match of the number pattern: returns the matched token and the
characters following the match (used by the unit extractor). -/
def findNumber : List Char → Option (List Char × List Char)
  | [] => none
  | c :: rest =>
    match matchNumberAt (c :: rest) with
    | some m => some (m, (c :: rest).drop m.length)
    | none => findNumber rest

/-- Python `_extract_length_from_notes(notes)`: first number found in the stripped
notes string, or `None` when the string is empty or has no number. -/
def extract_length_from_notes (notes : String) : Option ℚ :=
  if notes = "" then none
  else (findNumber notes.trim.toList).map (fun p => parseNumChars p.1)

/-- The function `_extract_length_from_notes` lifted to a possibly-`None` notes value, as
used by short-circuiting `bom_item_notes and _extract_length_from_notes(...)`
call sites. -/
def extractLengthOpt : Option String → Option ℚ
  | none => none
  | some s => extract_length_from_notes s

/-! ## Unit extraction (`_extract_length_with_unit`, `_check_unit_mismatch`) -/

/-- Unit alternatives of the regex
`(millimeters?|centimeters?|meters?|inches?|feet|mm|cm|in|ft|m)?`, expanded in
the regex engine's preference order (greedy optional plural first). -/
def unitCandidates : List String :=
  ["millimeters", "millimeter", "centimeters", "centimeter", "meters", "meter",
   "inches", "inch", "feet", "mm", "cm", "in", "ft", "m"]

/-- Case-insensitive prefix test used for the `re.IGNORECASE` unit match. -/
def startsWithCI : List Char → List Char → Bool
  | [], _ => true
  | _ :: _, [] => false
  | p :: ps, c :: cs => (p.toLower = c.toLower) && startsWithCI ps cs

/-- Python `\s` whitespace characters (ASCII). -/
def pyIsSpace (c : Char) : Bool :=
  c = ' ' || c = '\t' || c = '\n' || c = '\r' || c = '\x0b' || c = '\x0c'

/-- First unit alternative matching at the head of `cs` (case-insensitive). -/
def matchUnitAt (cs : List Char) : Option String :=
  unitCandidates.find? (fun u => startsWithCI u.toList cs)

/-- Python `_extract_length_with_unit(notes)`: the first number and the unit token
immediately adjacent to it (after optional whitespace), `None` otherwise. -/
def extract_length_with_unit (notes : String) : Option ℚ × Option String :=
  if notes = "" then (none, none)
  else
    match findNumber notes.trim.toList with
    | none => (none, none)
    | some (m, rest) => (some (parseNumChars m), matchUnitAt (rest.dropWhile pyIsSpace))

/-- Python `_check_unit_mismatch(notes, part_unit)`: warning message when the unit
adjacent to the first number differs (case-insensitively) from the part's
native unit. -/
def check_unit_mismatch (notes : String) (part_unit : String) : Option String :=
  if notes = "" ∨ part_unit = "" then none
  else
    match (extract_length_with_unit notes).2 with
    | some u =>
      if u ≠ part_unit.toLower then
        some ("BOM notes specify '" ++ u ++ "' but part uses '" ++ part_unit ++ "'")
      else none
    | none => none

/-! ## Categorization (`categorization.py`, `categorize_part`) -/

/-- Python `categorize_part` from `categorization.py`.  Python falls through a
sequence of `if` blocks; the nesting below reproduces that flow, including the
Python truthiness tests on `part_category_id` (`None`/`0` falsy),
`category_mappings` (empty dict falsy) and the category id lists. -/
def categorize_part (part_name : String) (is_assembly : Bool) (is_top_level : Bool)
    (default_supplier_id : Option Nat) (internal_supplier_ids : List Nat)
    (part_category_id : Option Nat) (category_mappings : List (String × List Nat))
    (bom_item_notes : Option String) : String :=
  let _ := part_name
  if is_top_level then "TLA"
  else
    let has_default_supplier : Bool := default_supplier_id.isSome
    let has_internal_supplier : Bool :=
      has_default_supplier &&
        (match default_supplier_id with
         | some s => decide (s ∈ internal_supplier_ids)
         | none => false)
    let fab_category_ids := cmGet category_mappings "fabrication"
    if is_assembly && (fab_category_ids != []) && pyTruthyNat part_category_id &&
        decide (part_category_id.getD 0 ∈ fab_category_ids) && has_internal_supplier then
      "Internal Fab"
    else if is_assembly && has_default_supplier && !has_internal_supplier then
      "Purchased Assy"
    else if !is_assembly && pyTruthyNat part_category_id && (category_mappings != []) then
      let c := part_category_id.getD 0
      let ctl_category_ids := cmGet category_mappings "cut_to_length"
      if (ctl_category_ids != []) && decide (c ∈ ctl_category_ids) then
        if pyTruthyStr bom_item_notes && (extractLengthOpt bom_item_notes).isSome then "CtL"
        else "Fab"
      else
        let coml_category_ids := cmGet category_mappings "commercial"
        if (coml_category_ids != []) && decide (c ∈ coml_category_ids) then "Coml"
        else if (fab_category_ids != []) && decide (c ∈ fab_category_ids) then "Fab"
        else if is_assembly then "Assy"
        else "Other"
    else if is_assembly then "Assy"
    else "Other"

/-! ## Data model

The host data store (InvenTree `Part` / `BomItem` rows) as read by
`get_bom_items` and `get_flat_bom`.  `Part.IPN`, `units`, `description` model
the `x or ""` coalescing at their read sites by holding the coalesced string
directly; `default_supplier` models the `SupplierPart` row with its own pk and
the pk of its supplier company. -/

/-- The fields of a `SupplierPart` row read by `traverse_bom`. -/
structure SupplierPart where
  pk : Nat
  supplier : Option Nat
deriving DecidableEq

/-- The fields of a `Part` row read by the core. -/
structure Part where
  pk : Nat
  IPN : String
  name : String
  full_name : String
  description : String
  units : String
  assembly : Bool
  purchaseable : Bool
  default_supplier : Option SupplierPart
  category : Option Nat
deriving DecidableEq

/-- A `BomItem` row: one BOM edge from `parent` to `sub_part`. -/
structure BomEdge where
  parent : Nat
  sub_part : Nat
  quantity : ℚ
  reference : String
  note : String
  optional : Bool
  inherited : Bool
deriving DecidableEq

/-- The read-only data store. -/
structure DB where
  parts : List Part
  bom : List BomEdge

/-- Python `Part.objects.get(pk=...)` (with `select_related`), as an `Option`. -/
def DB.findPart (db : DB) (pk : Nat) : Option Part :=
  db.parts.find? (fun p => p.pk = pk)

/-- One entry of the list built by `get_bom_items`. -/
structure BomItemData where
  sub_part : Part
  sub_part_id : Nat
  quantity : ℚ
  reference : String
  note : String
  notes : String
  optional : Bool
  inherited : Bool
  has_default_supplier : Bool

/-- Python `get_bom_items(part)`: the BOM edges whose parent is `part`, skipping
edges whose `sub_part` does not resolve. -/
def get_bom_items (db : DB) (part : Part) : List BomItemData :=
  (db.bom.filter (fun e => e.parent = part.pk)).filterMap (fun e =>
    match db.findPart e.sub_part with
    | none => none
    | some sp =>
      some { sub_part := sp, sub_part_id := sp.pk, quantity := e.quantity,
             reference := e.reference, note := e.note, notes := e.note,
             optional := e.optional, inherited := e.inherited,
             has_default_supplier := sp.default_supplier.isSome })

/-! ## Tree traversal (`traverse_bom`) -/

/-- The fields of one `traverse_bom` node dict, minus `children`.
`quantity`/`reference`/`note` are `none` until the parent attaches the edge
data after the recursive call returns; `from_internal_fab_parent`,
`parent_part_id` and `cut_length` are set only for Internal-Fab children
(absent dict keys are modelled as `false`/`none`, matching the `.get`
defaults at every read site). -/
structure NodeData where
  part_id : Nat
  ipn : String
  part_name : String
  description : String
  cumulative_qty : ℚ
  level : Nat
  parent_ipn : Option String
  unit : String
  is_assembly : Bool
  purchaseable : Bool
  default_supplier_id : Option Nat
  part_type : String
  max_depth_exceeded : Bool
  quantity : Option ℚ
  reference : Option String
  note : Option String
  from_internal_fab_parent : Bool
  parent_part_id : Option Nat
  cut_length : Option ℚ
deriving DecidableEq

/-- A BOM tree node: node dict plus its `children` list. -/
inductive TreeNode where
  | mk (data : NodeData) (children : List TreeNode)

/-- The node dict of a tree node. -/
def TreeNode.data : TreeNode → NodeData
  | .mk d _ => d

/-- The `children` list of a tree node. -/
def TreeNode.children : TreeNode → List TreeNode
  | .mk _ c => c

/-- The two shared mutable counters threaded through the traversal:
`imp_counter["count"]` and `depth_tracker["max_level"]`. -/
structure TravStats where
  impCount : Nat
  maxLevel : Nat
deriving DecidableEq

/-- Exceptions of the traversal: the `ValueError` raised by the visited-set
cycle check, and exhaustion of the embedding's fuel (which cannot happen at
the fuel supplied by `get_flat_bom`). -/
inductive TravErr where
  | circular (ipn : String) (part_id : Nat) (level : Nat)
  | outOfFuel
deriving DecidableEq

/-- The child post-processing done by `traverse_bom` after a recursive call
returns: attach the edge's quantity/reference/note, and mark Fab/Coml
children of an Internal Fab parent with `from_internal_fab_parent` and
`cut_length`. -/
def fixupChild (parent_type parent_ipn : String) (parent_id : Nat)
    (item : BomItemData) (child : TreeNode) : TreeNode :=
  let d := child.data
  let d := { d with quantity := some item.quantity, reference := some item.reference,
                    note := some item.note }
  let child_part_type := d.part_type
  let d :=
    if parent_type = "Internal Fab" ∧ (child_part_type = "Fab" ∨ child_part_type = "Coml") then
      { d with from_internal_fab_parent := true, parent_ipn := some parent_ipn,
               parent_part_id := some parent_id, cut_length := some item.quantity }
    else d
  TreeNode.mk d child.children

/-- The `for bom_item in bom_items:` loop of `traverse_bom`: recurse into each
edge via `travC` (the traversal at one level deeper), then post-process the
child node.  The first exception aborts the loop, as in Python. -/
def processChildren (travC : BomItemData → TravStats → Except TravErr (TreeNode × TravStats))
    (parent_type parent_ipn : String) (parent_id : Nat) :
    List BomItemData → TravStats → Except TravErr (List TreeNode × TravStats)
  | [], stats => .ok ([], stats)
  | item :: rest, stats =>
    match travC item stats with
    | .error e => .error e
    | .ok (child, stats1) =>
      let child1 := fixupChild parent_type parent_ipn parent_id item child
      match processChildren travC parent_type parent_ipn parent_id rest stats1 with
      | .error e => .error e
      | .ok (kids, stats2) => .ok (child1 :: kids, stats2)

/-- Python `traverse_bom`, by structural recursion on fuel.  Each recursive call
receives `visited` with the current part id consed on, which models Python's
"add to own set, pass `visited.copy()` to each child" (each child sees the
ancestor path only).  The cycle check raises before the node is built. -/
def traverse_bom (db : DB) : Nat → Part → Nat → ℚ → Option String → List Nat →
    Option Nat → List Nat → List (String × List Nat) → Option String → TravStats →
    Except TravErr (TreeNode × TravStats)
  | 0, _, _, _, _, _, _, _, _, _, _ => .error .outOfFuel
  | fuel + 1, part, level, parent_qty, parent_ipn, visited, max_depth,
      internal_supplier_ids, category_mappings, bom_item_notes, stats =>
    let part_id := part.pk
    if part_id ∈ visited then
      .error (.circular part.IPN part_id level)
    else
      let visited1 := part_id :: visited
      let ipn := part.IPN
      let part_name := part.name
      let units := part.units
      let is_assembly := part.assembly
      let description := part.description
      let default_supplier_id := part.default_supplier.map (fun sp => sp.pk)
      let default_supplier_company_id :=
        match part.default_supplier with
        | some sp => sp.supplier
        | none => none
      let is_top_level := level == 0
      let part_category_id := part.category
      let part_type := categorize_part part_name is_assembly is_top_level
        default_supplier_company_id internal_supplier_ids part_category_id
        category_mappings bom_item_notes
      let stats := if part_type = "Internal Fab" then
          { stats with impCount := stats.impCount + 1 } else stats
      let stats := { stats with maxLevel := max stats.maxLevel level }
      let node0 : NodeData :=
        { part_id := part_id, ipn := ipn, part_name := part_name,
          description := description, cumulative_qty := parent_qty, level := level,
          parent_ipn := parent_ipn, unit := units, is_assembly := is_assembly,
          purchaseable := part.purchaseable, default_supplier_id := default_supplier_id,
          part_type := part_type, max_depth_exceeded := false, quantity := none,
          reference := none, note := none, from_internal_fab_parent := false,
          parent_part_id := none, cut_length := none }
      let max_depth_hit : Bool :=
        match max_depth with
        | some d => decide (level ≥ d)
        | none => false
      let skip_bom_expansion := max_depth_hit
      if is_assembly && !skip_bom_expansion then
        let bom_items := get_bom_items db part
        match processChildren
            (fun item st => traverse_bom db fuel item.sub_part (level + 1)
              (parent_qty * item.quantity) (some ipn) visited1 max_depth
              internal_supplier_ids category_mappings (some item.notes) st)
            part_type ipn part_id bom_items stats with
        | .error e => .error e
        | .ok (children, stats1) =>
          .ok (TreeNode.mk { node0 with max_depth_exceeded := max_depth_hit && is_assembly }
                children, stats1)
      else
        .ok (TreeNode.mk { node0 with max_depth_exceeded := max_depth_hit && is_assembly }
              [], stats)

/-! ## Leaf flattening (`get_leaf_parts_only`) -/

/-- One flattened leaf record.  Dict keys that a given `leaves.append` call
does not set are modelled by the defaults the downstream `.get` reads supply:
`assembly_no_children := false`, `cut_length := none`, `quantity := none`
(the flattener never sets a `quantity` key, so the aggregator's
`leaf.get("quantity")` sees `None` for pipeline-produced records). -/
structure LeafRecord where
  part_id : Nat
  ipn : String
  part_name : String
  description : String
  cumulative_qty : ℚ
  cut_length : Option ℚ
  unit : String
  is_assembly : Bool
  purchaseable : Bool
  default_supplier_id : Option Nat
  part_type : String
  reference : String
  note : String
  level : Nat
  from_internal_fab_parent : Bool
  parent_ipn : Option String
  parent_part_id : Option Nat
  max_depth_exceeded : Bool
  assembly_no_children : Bool
  quantity : Option ℚ
deriving DecidableEq

/-- The leaf record appended for a non-assembly leaf part (first
`leaves.append` of `get_leaf_parts_only`), including the `CtL` /
internal-fab `cut_length` selection. -/
def nalLeaf (d : NodeData) : LeafRecord :=
  let cut_length : Option ℚ :=
    if d.part_type = "CtL" then extract_length_from_notes (d.note.getD "")
    else if d.from_internal_fab_parent then d.cut_length
    else none
  { part_id := d.part_id, ipn := d.ipn, part_name := d.part_name,
    description := d.description, cumulative_qty := d.cumulative_qty,
    cut_length := cut_length, unit := d.unit, is_assembly := d.is_assembly,
    purchaseable := d.purchaseable, default_supplier_id := d.default_supplier_id,
    part_type := d.part_type, reference := d.reference.getD "", note := d.note.getD "",
    level := d.level, from_internal_fab_parent := d.from_internal_fab_parent,
    parent_ipn := d.parent_ipn, parent_part_id := d.parent_part_id,
    max_depth_exceeded := d.max_depth_exceeded, assembly_no_children := false,
    quantity := none }

/-- The leaf record appended for a purchased assembly kept as a leaf (second
`leaves.append`; no `cut_length` and no `assembly_no_children` key). -/
def paLeaf (d : NodeData) : LeafRecord :=
  { part_id := d.part_id, ipn := d.ipn, part_name := d.part_name,
    description := d.description, cumulative_qty := d.cumulative_qty,
    cut_length := none, unit := d.unit, is_assembly := d.is_assembly,
    purchaseable := d.purchaseable, default_supplier_id := d.default_supplier_id,
    part_type := d.part_type, reference := d.reference.getD "", note := d.note.getD "",
    level := d.level, from_internal_fab_parent := d.from_internal_fab_parent,
    parent_ipn := d.parent_ipn, parent_part_id := d.parent_part_id,
    max_depth_exceeded := d.max_depth_exceeded, assembly_no_children := false,
    quantity := none }

/-- The leaf record appended for an assembly with no children (third
`leaves.append`): `assembly_no_children` is set only when the lack of
children is not due to the depth limit. -/
def ncLeaf (d : NodeData) : LeafRecord :=
  { part_id := d.part_id, ipn := d.ipn, part_name := d.part_name,
    description := d.description, cumulative_qty := d.cumulative_qty,
    cut_length := none, unit := d.unit, is_assembly := d.is_assembly,
    purchaseable := d.purchaseable, default_supplier_id := d.default_supplier_id,
    part_type := d.part_type, reference := d.reference.getD "", note := d.note.getD "",
    level := d.level, from_internal_fab_parent := d.from_internal_fab_parent,
    parent_ipn := d.parent_ipn, parent_part_id := d.parent_part_id,
    max_depth_exceeded := d.max_depth_exceeded,
    assembly_no_children := !d.max_depth_exceeded,
    quantity := none }

/-- Python `get_leaf_parts_only(tree, expand_purchased_assemblies)`, by structural
recursion on fuel (the tree produced by `traverse_bom` with fuel `f` has
depth below `f`, so `get_flat_bom`'s fuel is never exhausted).  The control
flow mirrors the source: a non-assembly (or Coml/Fab/CtL) node is emitted and
the flow continues; a purchased assembly is emitted and the function returns
early; an assembly with no children is emitted with the
`assembly_no_children`/`max_depth_exceeded` distinction and the function
returns; otherwise the children are flattened in order. -/
def get_leaf_parts_only (db_fuel : Nat) (expand_purchased_assemblies : Bool)
    (t : TreeNode) : List LeafRecord :=
  match db_fuel, t with
  | 0, _ => []
  | fuel + 1, .mk d children =>
    let part_type := d.part_type
    let is_purchaseable_assembly := part_type = "Purchased Assy"
    let is_non_assembly_leaf : Bool :=
      (part_type = "Coml" || part_type = "Fab" || part_type = "CtL") || !d.is_assembly
    if !is_non_assembly_leaf && is_purchaseable_assembly && !expand_purchased_assemblies then
      [paLeaf d]
    else
      let first := if is_non_assembly_leaf then [nalLeaf d] else []
      if d.is_assembly && children.isEmpty then
        first ++ [ncLeaf d]
      else
        first ++ (children.map (get_leaf_parts_only fuel expand_purchased_assemblies)).flatten

/-! ## Aggregation (`deduplicate_and_sum`) -/

/-- One `cut_list` entry for a CtL part. -/
structure CutEntry where
  quantity : ℚ
  length : ℚ
deriving DecidableEq

/-- One `internal_fab_cut_list` entry. -/
structure IfabEntry where
  count : ℚ
  piece_qty : ℚ
  unit : String
deriving DecidableEq

/-- One unit-mismatch warning dict (`wtype` models the `"type"` key). -/
structure CtlWarning where
  wtype : String
  part_id : Nat
  part_name : String
  message : String
deriving DecidableEq

/-- The metadata captured by `part_info[key]` on first occurrence. -/
structure RowInfo where
  part_id : Nat
  ipn : String
  part_name : String
  description : String
  unit : String
  is_assembly : Bool
  purchaseable : Bool
  default_supplier_id : Option Nat
  part_type : String
  note : String
  assembly_no_children : Bool
  max_depth_exceeded : Bool
deriving DecidableEq, Inhabited

/-- The `RowInfo` extracted from a leaf record (the `part_info[key] = {...}`
assignment). -/
def mkRowInfo (leaf : LeafRecord) : RowInfo :=
  { part_id := leaf.part_id, ipn := leaf.ipn, part_name := leaf.part_name,
    description := leaf.description, unit := leaf.unit,
    is_assembly := leaf.is_assembly, purchaseable := leaf.purchaseable,
    default_supplier_id := leaf.default_supplier_id, part_type := leaf.part_type,
    note := leaf.note, assembly_no_children := leaf.assembly_no_children,
    max_depth_exceeded := leaf.max_depth_exceeded }

/-- Python `totals[key] += v` on the `defaultdict(float)` (insertion order kept). -/
def addTotal : List (Nat × ℚ) → Nat → ℚ → List (Nat × ℚ)
  | [], k, v => [(k, v)]
  | (k1, v1) :: rest, k, v =>
    if k1 = k then (k1, v1 + v) :: rest else (k1, v1) :: addTotal rest k v

/-- Python `m[key]` on a `defaultdict(list)` (read without insertion). -/
def getList {α : Type} (m : List (Nat × List α)) (k : Nat) : List α :=
  (m.lookup k).getD []

/-- Python `m[key] = v` on a `defaultdict(list)` (insertion order kept). -/
def setList {α : Type} : List (Nat × List α) → Nat → List α → List (Nat × List α)
  | [], k, v => [(k, v)]
  | (k1, v1) :: rest, k, v =>
    if k1 = k then (k1, v) :: rest else (k1, v1) :: setList rest k v

/-- Python `if key not in part_info: part_info[key] = v` (first occurrence wins). -/
def putFirst (m : List (Nat × RowInfo)) (k : Nat) (v : RowInfo) : List (Nat × RowInfo) :=
  if (m.lookup k).isSome then m else m ++ [(k, v)]

/-- Python `leaf.get("quantity") or 1` (`None` and `0` fall back to `1`). -/
def pyOrOne : Option ℚ → ℚ
  | none => 1
  | some q => if q = 0 then 1 else q

/-- The cut-list merge loop: add the quantity to the first entry with the
same length, or append a new entry. -/
def addCutEntry : List CutEntry → ℚ → ℚ → List CutEntry
  | [], qty, len => [{ quantity := qty, length := len }]
  | e :: rest, qty, len =>
    if e.length = len then { e with quantity := e.quantity + qty } :: rest
    else e :: addCutEntry rest qty len

/-- The internal-fab cut-list merge loop: add the count to the first entry
with the same `(piece_qty, unit)` pair, or append a new entry. -/
def addIfabEntry : List IfabEntry → ℚ → ℚ → String → List IfabEntry
  | [], cnt, piece, u => [{ count := cnt, piece_qty := piece, unit := u }]
  | e :: rest, cnt, piece, u =>
    if e.piece_qty = piece ∧ e.unit = u then { e with count := e.count + cnt } :: rest
    else e :: addIfabEntry rest cnt piece u

/-- The accumulators of the main `for leaf in leaf_parts:` loop. -/
structure AggState where
  totals : List (Nat × ℚ)
  part_info : List (Nat × RowInfo)
  part_references : List (Nat × List String)
  cut_lists : List (Nat × List CutEntry)
  internal_fab_cut_lists : List (Nat × List IfabEntry)

/-- The empty accumulators. -/
def emptyAggState : AggState :=
  { totals := [], part_info := [], part_references := [], cut_lists := [],
    internal_fab_cut_lists := [] }

/-- The body of the main aggregation loop for one leaf record: the three
mutually exclusive quantity rules (CtL, internal-fab cut with allowed-units
check, regular), then reference collection and first-wins metadata. -/
def processLeaf (allowed_ifab_units : List String) (s : AggState) (leaf : LeafRecord) :
    AggState :=
  let key := leaf.part_id
  let s :=
    if leaf.part_type = "CtL" ∧ leaf.cut_length.isSome then
      let cl := leaf.cut_length.getD 0
      let newCuts := addCutEntry (getList s.cut_lists key) leaf.cumulative_qty cl
      { s with totals := addTotal s.totals key (leaf.cumulative_qty * cl),
               cut_lists := setList s.cut_lists key newCuts }
    else if leaf.from_internal_fab_parent ∧ leaf.cut_length.isSome then
      let cl := leaf.cut_length.getD 0
      if leaf.unit ∉ allowed_ifab_units then
        let piece_count_inc := pyOrOne leaf.quantity
        { s with totals := addTotal s.totals key (cl * piece_count_inc) }
      else
        let piece_count_inc := pyOrOne leaf.quantity
        let newIfab :=
          addIfabEntry (getList s.internal_fab_cut_lists key) piece_count_inc cl leaf.unit
        { s with totals := addTotal s.totals key (cl * piece_count_inc),
                 internal_fab_cut_lists := setList s.internal_fab_cut_lists key newIfab }
    else
      { s with totals := addTotal s.totals key leaf.cumulative_qty }
  let s :=
    if leaf.note.trim ≠ "" then
      let newRefs := getList s.part_references key ++ [leaf.note]
      { s with part_references := setList s.part_references key newRefs }
    else s
  { s with part_info := putFirst s.part_info key (mkRowInfo leaf) }

/-- One step of the CtL-notes collection pass (`ctl_parts_notes`): for each
CtL record with a non-empty note, record the note (deduplicated) and the
part name under the part id. -/
def ctlNoteStep (m : List (Nat × (List String × String))) (leaf : LeafRecord) :
    List (Nat × (List String × String)) :=
  if leaf.part_type = "CtL" ∧ leaf.note ≠ "" then
    match m.lookup leaf.part_id with
    | none => m ++ [(leaf.part_id, ([leaf.note], leaf.part_name))]
    | some (ns, nm) =>
      if leaf.note ∈ ns then m
      else m.map (fun p => if p.1 = leaf.part_id then (p.1, (ns ++ [leaf.note], nm)) else p)
  else m

/-- The unit-mismatch warning pass: fetch each CtL part from the data store
(a missing part is the caught-and-logged exception branch, producing no
warning) and emit one warning per note with a mismatching unit. -/
def ctlWarningsFor (db : DB) (m : List (Nat × (List String × String))) : List CtlWarning :=
  (m.map (fun p =>
    match db.findPart p.1 with
    | none => []
    | some part_obj =>
      let part_units := part_obj.units
      let part_full_name := part_obj.full_name
      p.2.1.filterMap (fun note =>
        match check_unit_mismatch note part_units with
        | some w =>
          some { wtype := "unit_mismatch", part_id := p.1, part_name := part_full_name,
                 message := w ++ " (in note: '" ++ note ++ "')" }
        | none => none))).flatten

/-- One output row of `deduplicate_and_sum`.  `has_ifab_cut_field` records
whether the `internal_fab_cut_list` key is present at all (it is omitted
entirely when the feature is disabled). -/
structure Row where
  part_id : Nat
  total_qty : ℚ
  ipn : String
  part_name : String
  description : String
  unit : String
  is_assembly : Bool
  purchaseable : Bool
  default_supplier_id : Option Nat
  part_type : String
  note : String
  reference : String
  cut_list : Option (List CutEntry)
  assembly_no_children : Bool
  max_depth_exceeded : Bool
  has_ifab_cut_field : Bool
  internal_fab_cut_list : Option (List IfabEntry)
deriving DecidableEq

/-- The row built for one key of `all_keys`. -/
def buildRow (s : AggState) (enable_ifab_cuts : Bool) (k : Nat) : Row :=
  let info := (s.part_info.lookup k).getD default
  { part_id := info.part_id,
    total_qty := (s.totals.lookup k).getD 0,
    ipn := info.ipn, part_name := info.part_name, description := info.description,
    unit := info.unit, is_assembly := info.is_assembly,
    purchaseable := info.purchaseable,
    default_supplier_id := info.default_supplier_id, part_type := info.part_type,
    note := info.note,
    reference := String.intercalate ", " (getList s.part_references k),
    cut_list := match getList s.cut_lists k with
      | [] => none
      | l => some l,
    assembly_no_children := info.assembly_no_children,
    max_depth_exceeded := info.max_depth_exceeded,
    has_ifab_cut_field := enable_ifab_cuts,
    internal_fab_cut_list :=
      if enable_ifab_cuts then
        match getList s.internal_fab_cut_lists k with
        | [] => none
        | l => some l
      else none }

/-- Python `all_keys`, in first-occurrence order (the Python set union carries no
order; the subsequent sort by IPN determinizes everything except ties). -/
def allKeysRaw (s : AggState) : List Nat :=
  s.totals.map (fun p => p.1)
    ++ (s.cut_lists.filter (fun p => p.2 ≠ [])).map (fun p => p.1)
    ++ (s.internal_fab_cut_lists.filter (fun p => p.2 ≠ [])).map (fun p => p.1)

/-- Keep the first occurrence of each key (`seen` accumulates emitted keys). -/
def firstDedupAux (seen : List Nat) : List Nat → List Nat
  | [] => []
  | k :: rest =>
    if k ∈ seen then firstDedupAux seen rest
    else k :: firstDedupAux (k :: seen) rest

/-- Keep the first occurrence of each key. -/
def firstDedup (l : List Nat) : List Nat :=
  firstDedupAux [] l

/-- The IPN used as the sort key of `sorted(all_keys, key=...)`. -/
def ipnOf (info : List (Nat × RowInfo)) (k : Nat) : String :=
  ((info.lookup k).getD default).ipn

/-- Stable insertion of a key into an IPN-sorted key list (a later-processed
key goes after earlier keys with the same IPN, matching Python's stable
sort). -/
def insByIpn (info : List (Nat × RowInfo)) (k : Nat) : List Nat → List Nat
  | [] => [k]
  | k1 :: rest =>
    if ipnOf info k1 ≤ ipnOf info k then k1 :: insByIpn info k rest
    else k :: k1 :: rest

/-- Python `sorted(all_keys, key=lambda k: part_info[k]["ipn"])` as a stable
insertion sort. -/
def sortKeysByIpn (info : List (Nat × RowInfo)) (keys : List Nat) : List Nat :=
  keys.foldl (fun acc k => insByIpn info k acc) []

/-- The mutable attributes stored on the `deduplicate_and_sum` function
object across calls.  `none` models an attribute never yet assigned (before
any `get_flat_bom` call). -/
structure DedupState where
  ifab_units : Option (List String)
  enable_ifab_cuts : Option Bool
  ctl_warnings : Option (List CtlWarning)
deriving DecidableEq

/-- The function-attribute state of a fresh interpreter: no attribute set. -/
def initialDedupState : DedupState :=
  { ifab_units := none, enable_ifab_cuts := none, ctl_warnings := none }

/-- Python `deduplicate_and_sum(leaf_parts)`.  Reads `ifab_units` (via `hasattr`,
default empty set) and `enable_ifab_cuts` (via `getattr`, default `False`)
from the function-attribute state, stores the computed `ctl_warnings` back
into it, and returns the aggregated rows sorted by IPN. -/
def deduplicate_and_sum (db : DB) (st : DedupState) (leaf_parts : List LeafRecord) :
    List Row × DedupState :=
  let allowed_ifab_units := st.ifab_units.getD []
  let s := leaf_parts.foldl (processLeaf allowed_ifab_units) emptyAggState
  let ctl_parts_notes := leaf_parts.foldl ctlNoteStep []
  let ctl_warnings := ctlWarningsFor db ctl_parts_notes
  let enable_ifab_cuts := st.enable_ifab_cuts.getD false
  let keys := sortKeysByIpn s.part_info (firstDedup (allKeysRaw s))
  (keys.map (buildRow s enable_ifab_cuts), { st with ctl_warnings := some ctl_warnings })

/-! ## Orchestration (`get_flat_bom`) -/

/-- The failure conditions a caller of `get_flat_bom` could observe if they
escaped.  The function catches every one of them (`except Part.DoesNotExist`
and the blanket `except Exception`), so no `.error` value is ever produced. -/
inductive GFBFailure where
  | notFound (part_id : Nat)
  | traversal (e : TravErr)
deriving DecidableEq

/-- Python `get_flat_bom(part_id, ...)`: fetch the root part, traverse, flatten,
store `ifab_units`/`enable_ifab_cuts` on the aggregator state, aggregate, and
return `(flat_bom, internal-fab count, ctl_warnings, max depth reached)`.
Both the missing-part case and any traversal exception are caught and mapped
to the sentinel `([], 0, [], 0)` with the attribute state untouched. -/
def get_flat_bom (db : DB) (st : DedupState) (part_id : Nat) (max_depth : Option Nat)
    (expand_purchased_assemblies : Bool) (internal_supplier_ids : List Nat)
    (category_mappings : List (String × List Nat)) (enable_ifab_cuts : Bool)
    (ifab_units : Option (List String)) :
    Except GFBFailure (List Row × Nat × List CtlWarning × Nat) × DedupState :=
  match db.findPart part_id with
  | none => (.ok ([], 0, [], 0), st)
  | some part =>
    match traverse_bom db (db.parts.length + 1) part 0 1 none [] max_depth
        internal_supplier_ids category_mappings none { impCount := 0, maxLevel := 0 } with
    | .error _ => (.ok ([], 0, [], 0), st)
    | .ok (bom_tree, stats) =>
      let leaf_parts := get_leaf_parts_only (db.parts.length + 2)
        expand_purchased_assemblies bom_tree
      let st1 := { st with ifab_units := some (ifab_units.getD []),
                           enable_ifab_cuts := some enable_ifab_cuts }
      let res := deduplicate_and_sum db st1 leaf_parts
      let ctl_warnings := res.2.ctl_warnings.getD []
      (.ok (res.1, stats.impCount, ctl_warnings, stats.maxLevel), res.2)

/-! ## Verification predicates and general lemmas -/

/-- The cumulative-quantity invariant of a BOM tree: every child's
`cumulative_qty` is its parent's `cumulative_qty` times the child's own
attached BOM edge quantity, recursively. -/
inductive CumOK : TreeNode → Prop where
  | node (d : NodeData) (children : List TreeNode) :
      (∀ c ∈ children,
        ∃ q, c.data.quantity = some q ∧ c.data.cumulative_qty = d.cumulative_qty * q) →
      (∀ c ∈ children, CumOK c) →
      CumOK (.mk d children)

/-- A descent path through a BOM tree, collecting the attached BOM edge
quantity of every node stepped into. -/
inductive PathTo : TreeNode → TreeNode → List ℚ → Prop where
  | refl (t : TreeNode) : PathTo t t []
  | step {c n : TreeNode} {qs : List ℚ} (t : TreeNode) (q : ℚ) :
      c ∈ t.children → c.data.quantity = some q → PathTo c n qs → PathTo t n (q :: qs)

/-- Acyclicity of the BOM graph reachable from `part`, relative to the
ancestor set `visited`: no root-to-node path through the database's BOM edges
ever revisits a part id.  This is exactly the condition under which the
visited-set check of `traverse_bom` can never fire. -/
inductive Avoids (db : DB) : List Nat → Part → Prop where
  | node (visited : List Nat) (part : Part) :
      part.pk ∉ visited →
      (∀ item ∈ get_bom_items db part, Avoids db (part.pk :: visited) item.sub_part) →
      Avoids db visited part

/-! ### Verification helpers for the aggregation loop body -/

/-- The quantity one leaf record adds to its part's running total, per the
three mutually exclusive rules of `deduplicate_and_sum` (the internal-fab rule
adds the same quantity whether or not the unit is allowed). -/
def leafContrib (leaf : LeafRecord) : ℚ :=
  if leaf.part_type = "CtL" ∧ leaf.cut_length.isSome then
    leaf.cumulative_qty * leaf.cut_length.getD 0
  else if leaf.from_internal_fab_parent ∧ leaf.cut_length.isSome then
    leaf.cut_length.getD 0 * pyOrOne leaf.quantity
  else leaf.cumulative_qty

/-! ### Verification predicates for the aggregation fold -/

/-- A leaf record handled by the regular rule: neither the CtL rule nor the
internal-fab-cut rule applies. -/
def isRegular (leaf : LeafRecord) : Prop :=
  ¬(leaf.part_type = "CtL" ∧ leaf.cut_length.isSome) ∧
    ¬(leaf.from_internal_fab_parent ∧ leaf.cut_length.isSome)

/-- Every stored `part_info` entry is keyed by its own `part_id`. -/
def InfoInv (s : AggState) : Prop :=
  ∀ k v, List.lookup k s.part_info = some v → v.part_id = k

/-- Every key present in any accumulator is present in `part_info`. -/
def KeysInv (s : AggState) : Prop :=
  ∀ k, ((s.totals.lookup k).isSome ∨ (s.cut_lists.lookup k).isSome ∨
      (s.internal_fab_cut_lists.lookup k).isSome) →
    (s.part_info.lookup k).isSome

/-! ## Concrete fixtures used by claim witnesses and counterexamples -/

/-- A data store with no parts at all. -/
def emptyDb : DB := { parts := [], bom := [] }

/-- Chain fixture for C3: root R -(qty 2)-> A -(qty 3)-> B. -/
def p3R : Part :=
  { pk := 1, IPN := "R", name := "R", full_name := "R", description := "", units := "",
    assembly := true, purchaseable := false, default_supplier := none, category := none }

def p3A : Part :=
  { pk := 2, IPN := "A", name := "A", full_name := "A", description := "", units := "",
    assembly := true, purchaseable := false, default_supplier := none, category := none }

def p3B : Part :=
  { pk := 3, IPN := "B", name := "B", full_name := "B", description := "", units := "",
    assembly := false, purchaseable := true, default_supplier := none, category := none }

def db3 : DB :=
  { parts := [p3R, p3A, p3B],
    bom := [{ parent := 1, sub_part := 2, quantity := 2, reference := "", note := "",
              optional := false, inherited := false },
            { parent := 2, sub_part := 3, quantity := 3, reference := "", note := "",
              optional := false, inherited := false }] }

/-- The tree `traverse_bom` builds from `db3`. -/
def t3B : TreeNode :=
  TreeNode.mk
    { part_id := 3, ipn := "B", part_name := "B", description := "",
      cumulative_qty := 6, level := 2, parent_ipn := some "A", unit := "",
      is_assembly := false, purchaseable := true, default_supplier_id := none,
      part_type := "Other", max_depth_exceeded := false, quantity := some 3,
      reference := some "", note := some "", from_internal_fab_parent := false,
      parent_part_id := none, cut_length := none } []

def t3A : TreeNode :=
  TreeNode.mk
    { part_id := 2, ipn := "A", part_name := "A", description := "",
      cumulative_qty := 2, level := 1, parent_ipn := some "R", unit := "",
      is_assembly := true, purchaseable := false, default_supplier_id := none,
      part_type := "Assy", max_depth_exceeded := false, quantity := some 2,
      reference := some "", note := some "", from_internal_fab_parent := false,
      parent_part_id := none, cut_length := none } [t3B]

def t3R : TreeNode :=
  TreeNode.mk
    { part_id := 1, ipn := "R", part_name := "R", description := "",
      cumulative_qty := 1, level := 0, parent_ipn := none, unit := "",
      is_assembly := true, purchaseable := false, default_supplier_id := none,
      part_type := "TLA", max_depth_exceeded := false, quantity := none,
      reference := none, note := none, from_internal_fab_parent := false,
      parent_part_id := none, cut_length := none } [t3A]

/-- Diamond fixture for C4: R -(2)-> A -(4, note "N1")-> X and
R -(3)-> B -(2, note "N2")-> X, so X appears with per-branch cumulative
quantities 8 and 6. -/
def p4A : Part :=
  { pk := 2, IPN := "A", name := "A", full_name := "A", description := "", units := "",
    assembly := true, purchaseable := false, default_supplier := none, category := none }

def p4B : Part :=
  { pk := 3, IPN := "B", name := "B", full_name := "B", description := "", units := "",
    assembly := true, purchaseable := false, default_supplier := none, category := none }

def p4X : Part :=
  { pk := 4, IPN := "X", name := "X", full_name := "X", description := "", units := "",
    assembly := false, purchaseable := true, default_supplier := none, category := none }

def db4 : DB :=
  { parts := [p3R, p4A, p4B, p4X],
    bom := [{ parent := 1, sub_part := 2, quantity := 2, reference := "", note := "",
              optional := false, inherited := false },
            { parent := 1, sub_part := 3, quantity := 3, reference := "", note := "",
              optional := false, inherited := false },
            { parent := 2, sub_part := 4, quantity := 4, reference := "", note := "N1",
              optional := false, inherited := false },
            { parent := 3, sub_part := 4, quantity := 2, reference := "", note := "N2",
              optional := false, inherited := false }] }

/-- Single-part store (no BOM rows) used for simple witness instances. -/
def pLone : Part :=
  { pk := 7, IPN := "L", name := "L", full_name := "L", description := "", units := "",
    assembly := false, purchaseable := true, default_supplier := none, category := none }

def dbLone : DB := { parts := [pLone], bom := [] }

/-- A regular (non-CtL, non-internal-fab) leaf record for part 4. -/
def rReg : LeafRecord :=
  { part_id := 4, ipn := "X", part_name := "X", description := "", cumulative_qty := 8,
    cut_length := none, unit := "", is_assembly := false, purchaseable := true,
    default_supplier_id := none, part_type := "Other", reference := "", note := "N1",
    level := 2, from_internal_fab_parent := false, parent_ipn := none,
    parent_part_id := none, max_depth_exceeded := false, assembly_no_children := false,
    quantity := none }

/-- CtL leaf records of part 4 with cut lengths 35, 35, 50 at cumulative
quantity 1 each. -/
def rCtl (cl : ℚ) : LeafRecord :=
  { part_id := 4, ipn := "T", part_name := "T", description := "", cumulative_qty := 1,
    cut_length := some cl, unit := "mm", is_assembly := false, purchaseable := true,
    default_supplier_id := none, part_type := "CtL", reference := "", note := "",
    level := 1, from_internal_fab_parent := false, parent_ipn := none,
    parent_part_id := none, max_depth_exceeded := false, assembly_no_children := false,
    quantity := none }

/-- Internal-fab-child leaf records of part 5 with cut length 35, unit "mm". -/
def rIf (u : String) (cum : ℚ) : LeafRecord :=
  { part_id := 5, ipn := "F", part_name := "F", description := "", cumulative_qty := cum,
    cut_length := some 35, unit := u, is_assembly := false, purchaseable := true,
    default_supplier_id := none, part_type := "Fab", reference := "", note := "",
    level := 2, from_internal_fab_parent := true, parent_ipn := some "P",
    parent_part_id := some 9, max_depth_exceeded := false, assembly_no_children := false,
    quantity := none }

/-- The attribute state after a `get_flat_bom` call with allowed unit "mm" and
the internal-fab cut list feature enabled. -/
def stMm : DedupState :=
  { ifab_units := some ["mm"], enable_ifab_cuts := some true, ctl_warnings := none }

/-- Purchased-assembly fixture for C9: root R with one purchased-assembly
child P which genuinely has no BOM items. -/
def p9P : Part :=
  { pk := 2, IPN := "P", name := "P", full_name := "P", description := "", units := "",
    assembly := true, purchaseable := true,
    default_supplier := some { pk := 11, supplier := some 5 }, category := none }

def db9 : DB :=
  { parts := [p3R, p9P],
    bom := [{ parent := 1, sub_part := 2, quantity := 1, reference := "", note := "",
              optional := false, inherited := false }] }

/-- A purchased-assembly node dict with no children and no depth truncation. -/
def nd9 : NodeData :=
  { part_id := 2, ipn := "P", part_name := "P", description := "",
    cumulative_qty := 1, level := 1, parent_ipn := some "R", unit := "",
    is_assembly := true, purchaseable := true, default_supplier_id := some 11,
    part_type := "Purchased Assy", max_depth_exceeded := false, quantity := some 1,
    reference := some "", note := some "", from_internal_fab_parent := false,
    parent_part_id := none, cut_length := none }

/-! ## Theorems -/

theorem TreeNode.eta (t : TreeNode) : TreeNode.mk t.data t.children = t := by
  cases t
  rfl

theorem CumOK.children_qty {d : NodeData} {children : List TreeNode}
    (h : CumOK (.mk d children)) :
    ∀ c ∈ children,
      ∃ q, c.data.quantity = some q ∧ c.data.cumulative_qty = d.cumulative_qty * q := by
  cases h with
  | node _ _ hq _ => exact hq

theorem CumOK.children_ok {d : NodeData} {children : List TreeNode}
    (h : CumOK (.mk d children)) : ∀ c ∈ children, CumOK c := by
  cases h with
  | node _ _ _ hc => exact hc

theorem CumOK.of_data_eq {d d' : NodeData} {children : List TreeNode}
    (h : CumOK (.mk d children)) (hq : d'.cumulative_qty = d.cumulative_qty) :
    CumOK (.mk d' children) := by
  refine CumOK.node d' children (fun c hc => ?_) h.children_ok
  obtain ⟨q, hq1, hq2⟩ := h.children_qty c hc
  exact ⟨q, hq1, by rw [hq, hq2]⟩

theorem fixupChild_data_cumulative (pt pi : String) (pid : Nat) (item : BomItemData)
    (child : TreeNode) :
    (fixupChild pt pi pid item child).data.cumulative_qty = child.data.cumulative_qty := by
  unfold fixupChild
  dsimp only
  split <;> rfl

theorem fixupChild_data_quantity (pt pi : String) (pid : Nat) (item : BomItemData)
    (child : TreeNode) :
    (fixupChild pt pi pid item child).data.quantity = some item.quantity := by
  unfold fixupChild
  dsimp only
  split <;> rfl

theorem fixupChild_children (pt pi : String) (pid : Nat) (item : BomItemData)
    (child : TreeNode) :
    (fixupChild pt pi pid item child).children = child.children := by
  unfold fixupChild
  dsimp only
  rfl

/-- Every node in the children list produced by `processChildren` is the
post-processed result of a successful `travC` call on one of the items. -/
theorem processChildren_mem
    {travC : BomItemData → TravStats → Except TravErr (TreeNode × TravStats)}
    {pt pi : String} {pid : Nat} :
    ∀ {items : List BomItemData} {stats : TravStats} {kids : List TreeNode}
      {stats2 : TravStats},
      processChildren travC pt pi pid items stats = .ok (kids, stats2) →
      ∀ c ∈ kids, ∃ item ∈ items, ∃ child st1 st2,
        travC item st1 = .ok (child, st2) ∧ c = fixupChild pt pi pid item child := by
  intro items
  induction items with
  | nil =>
    intro stats kids stats2 h c hc
    simp only [processChildren] at h
    cases h
    simp at hc
  | cons item rest ih =>
    intro stats kids stats2 h c hc
    simp only [processChildren] at h
    split at h
    · cases h
    · rename_i child stats1 h1
      split at h
      · cases h
      · rename_i kids1 stats3 h2
        cases h
        rcases List.mem_cons.1 hc with hc | hc
        · exact ⟨item, by simp, child, stats, stats1, h1, hc⟩
        · obtain ⟨item', hitem', child', st1, st2, h3, h4⟩ := ih h2 c hc
          exact ⟨item', by simp [hitem'], child', st1, st2, h3, h4⟩

/-- The `fixupChild` step changes no field that the cumulative-quantity invariant
inspects below the child itself. -/
theorem CumOK.fixup {child : TreeNode} (h : CumOK child) (pt pi : String) (pid : Nat)
    (item : BomItemData) : CumOK (fixupChild pt pi pid item child) := by
  cases child with
  | mk cd cc =>
    unfold fixupChild
    dsimp only [TreeNode.data, TreeNode.children]
    split
    · exact h.of_data_eq rfl
    · exact h.of_data_eq rfl

/-- Cumulative-quantity correctness of `traverse_bom`: a successful traversal
returns a root node whose `cumulative_qty` is the `parent_qty` argument, and
every child node's `cumulative_qty` is its parent's times its own edge
quantity. -/
theorem traverse_bom_cum :
    ∀ (fuel : Nat) (db : DB) (part : Part) (level : Nat) (pq : ℚ)
      (pipn : Option String) (visited : List Nat) (md : Option Nat)
      (isup : List Nat) (cm : List (String × List Nat)) (notes : Option String)
      (stats : TravStats) (out : TreeNode × TravStats),
      traverse_bom db fuel part level pq pipn visited md isup cm notes stats = .ok out →
      out.1.data.cumulative_qty = pq ∧ CumOK out.1 := by
  intro fuel
  induction fuel with
  | zero =>
    intro db part level pq pipn visited md isup cm notes stats out h
    simp only [traverse_bom] at h
    cases h
  | succ f ih =>
    intro db part level pq pipn visited md isup cm notes stats out h
    simp only [traverse_bom] at h
    split at h
    · cases h
    · split at h
      · -- assembly branch: match on processChildren
        split at h
        · cases h
        · cases h
          rename_i children stats1 heq
          have key : ∀ c ∈ children,
              (∃ q, c.data.quantity = some q ∧ c.data.cumulative_qty = pq * q) ∧ CumOK c := by
            intro c hc
            obtain ⟨item, hitem, child, st1, st2, htrav, hceq⟩ :=
              processChildren_mem heq c hc
            obtain ⟨hcum, hok⟩ := ih db item.sub_part (level + 1) (pq * item.quantity)
              (some part.IPN) (part.pk :: visited) md isup cm (some item.notes) st1
              (child, st2) htrav
            subst hceq
            constructor
            · exact ⟨item.quantity, fixupChild_data_quantity _ _ _ _ _, by
                rw [fixupChild_data_cumulative]
                exact hcum⟩
            · exact hok.fixup _ _ _ _
          exact ⟨rfl, CumOK.node _ children (fun c hc => (key c hc).1)
            (fun c hc => (key c hc).2)⟩
      · cases h
        exact ⟨rfl, CumOK.node _ [] (by simp) (by simp)⟩

theorem Avoids.pk_not_mem {db : DB} {visited : List Nat} {part : Part}
    (h : Avoids db visited part) : part.pk ∉ visited := by
  cases h with
  | node _ _ hpk _ => exact hpk

theorem Avoids.children {db : DB} {visited : List Nat} {part : Part}
    (h : Avoids db visited part) :
    ∀ item ∈ get_bom_items db part, Avoids db (part.pk :: visited) item.sub_part := by
  cases h with
  | node _ _ _ hc => exact hc

/-- An error escaping the children loop comes from one of the `travC` calls. -/
theorem processChildren_err
    {travC : BomItemData → TravStats → Except TravErr (TreeNode × TravStats)}
    {pt pi : String} {pid : Nat} :
    ∀ {items : List BomItemData} {stats : TravStats} {e : TravErr},
      processChildren travC pt pi pid items stats = .error e →
      ∃ item ∈ items, ∃ st1, travC item st1 = .error e := by
  intro items
  induction items with
  | nil =>
    intro stats e h
    simp only [processChildren] at h
    cases h
  | cons item rest ih =>
    intro stats e h
    simp only [processChildren] at h
    split at h
    · rename_i e1 h1
      cases h
      exact ⟨item, by simp, stats, h1⟩
    · rename_i child stats1 h1
      split at h
      · rename_i e1 h2
        cases h
        obtain ⟨item', hitem', st1, h3⟩ := ih h2
        exact ⟨item', by simp [hitem'], st1, h3⟩
      · cases h

/-- On an acyclic BOM graph the visited-set check never fires: `traverse_bom`
never raises the circular-reference `ValueError`, whatever the fuel, depth
limit and settings (the only possible error is exhaustion of the embedding's
fuel, which is not an exception of the Python code). -/
theorem traverse_bom_no_cycle :
    ∀ (fuel : Nat) (db : DB) (part : Part) (level : Nat) (pq : ℚ)
      (pipn : Option String) (visited : List Nat) (md : Option Nat)
      (isup : List Nat) (cm : List (String × List Nat)) (notes : Option String)
      (stats : TravStats) (i : String) (p l : Nat),
      Avoids db visited part →
      traverse_bom db fuel part level pq pipn visited md isup cm notes stats ≠
        .error (.circular i p l) := by
  intro fuel
  induction fuel with
  | zero =>
    intro db part level pq pipn visited md isup cm notes stats i p l _ h
    simp only [traverse_bom] at h
    cases h
  | succ f ih =>
    intro db part level pq pipn visited md isup cm notes stats i p l hav h
    simp only [traverse_bom] at h
    split at h
    · rename_i hmem
      exact hav.pk_not_mem hmem
    · split at h
      · split at h
        · rename_i e heq
          cases h
          obtain ⟨item, hitem, st1, h3⟩ := processChildren_err heq
          exact ih db item.sub_part (level + 1) (pq * item.quantity) (some part.IPN)
            (part.pk :: visited) md isup cm (some item.notes) st1 i p l
            (hav.children item hitem) h3
        · cases h
      · cases h

/-! ### Association-list lemmas for the aggregation accumulators -/

theorem addTotal_lookup (m : List (Nat × ℚ)) (k : Nat) (v : ℚ) (k' : Nat) :
    List.lookup k' (addTotal m k v) =
      if k' = k then some ((List.lookup k m).getD 0 + v) else List.lookup k' m := by
  induction m with
  | nil =>
    by_cases h : k' = k
    · simp [addTotal, List.lookup, h]
    · have hb : (k' == k) = false := by simp [h]
      simp [addTotal, List.lookup, h, hb]
  | cons p rest ih =>
    obtain ⟨k1, v1⟩ := p
    by_cases h1 : k1 = k
    · subst h1
      by_cases h2 : k' = k1
      · simp [addTotal, List.lookup, h2]
      · have hb : (k' == k1) = false := by simp [h2]
        simp [addTotal, List.lookup, h2, hb]
    · have hk : (k == k1) = false := by simp [Ne.symm h1]
      by_cases h2 : k' = k1
      · subst h2
        have hne : ¬ k' = k := fun hc => h1 (hc ▸ rfl)
        simp [addTotal, if_neg h1, List.lookup, hne, hk]
      · have hb : (k' == k1) = false := by simp [h2]
        simp [addTotal, if_neg h1, List.lookup, hb, hk, ih]

theorem setList_lookup {α : Type} (m : List (Nat × List α)) (k : Nat) (v : List α)
    (k' : Nat) :
    List.lookup k' (setList m k v) = if k' = k then some v else List.lookup k' m := by
  induction m with
  | nil =>
    by_cases h : k' = k
    · simp [setList, List.lookup, h]
    · have hb : (k' == k) = false := by simp [h]
      simp [setList, List.lookup, h, hb]
  | cons p rest ih =>
    obtain ⟨k1, v1⟩ := p
    by_cases h1 : k1 = k
    · subst h1
      by_cases h2 : k' = k1
      · simp [setList, List.lookup, h2]
      · have hb : (k' == k1) = false := by simp [h2]
        simp [setList, List.lookup, h2, hb]
    · by_cases h2 : k' = k1
      · subst h2
        have hne : ¬ k' = k := fun hc => h1 (hc ▸ rfl)
        simp [setList, if_neg h1, List.lookup, hne]
      · have hb : (k' == k1) = false := by simp [h2]
        simp [setList, if_neg h1, List.lookup, hb, ih]

theorem lookup_append_single {α : Type} (m : List (Nat × α)) (k : Nat) (v : α)
    (k' : Nat) :
    List.lookup k' (m ++ [(k, v)]) =
      match List.lookup k' m with
      | some w => some w
      | none => if k' = k then some v else none := by
  induction m with
  | nil =>
    by_cases h : k' = k
    · simp [List.lookup, h]
    · have hb : (k' == k) = false := by simp [h]
      simp [List.lookup, h, hb]
  | cons p rest ih =>
    obtain ⟨k1, v1⟩ := p
    by_cases h2 : k' = k1
    · simp [List.lookup, h2]
    · have hb : (k' == k1) = false := by simp [h2]
      simp [List.lookup, hb, ih]

theorem putFirst_lookup (m : List (Nat × RowInfo)) (k : Nat) (v : RowInfo) (k' : Nat) :
    List.lookup k' (putFirst m k v) =
      if k' = k then some ((List.lookup k m).getD v) else List.lookup k' m := by
  unfold putFirst
  by_cases hmem : (List.lookup k m).isSome
  · obtain ⟨w, hw⟩ := Option.isSome_iff_exists.1 hmem
    simp only [hmem, if_true, hw, Option.getD_some]
    by_cases h : k' = k
    · subst h
      simp [hw]
    · simp [h]
  · have hnone : List.lookup k m = none := Option.not_isSome_iff_eq_none.1 hmem
    simp only [hmem, if_false, Bool.false_eq_true, lookup_append_single]
    by_cases h : k' = k
    · subst h
      simp [hnone]
    · cases hl : List.lookup k' m <;> simp [h, hl]

theorem mem_map_fst_iff_lookup {α : Type} (m : List (Nat × α)) (k : Nat) :
    k ∈ m.map Prod.fst ↔ (List.lookup k m).isSome := by
  induction m with
  | nil => simp [List.lookup]
  | cons p rest ih =>
    obtain ⟨k1, v1⟩ := p
    by_cases h : k = k1
    · subst h
      simp [List.lookup]
    · have hb : (k == k1) = false := by simp [h]
      simp [List.lookup, h, hb, ih]

theorem processLeaf_totals (allowed : List String) (s : AggState) (leaf : LeafRecord) :
    (processLeaf allowed s leaf).totals = addTotal s.totals leaf.part_id (leafContrib leaf) := by
  unfold processLeaf leafContrib
  dsimp only
  split_ifs <;> rfl

theorem processLeaf_part_info (allowed : List String) (s : AggState) (leaf : LeafRecord) :
    (processLeaf allowed s leaf).part_info =
      putFirst s.part_info leaf.part_id (mkRowInfo leaf) := by
  unfold processLeaf
  dsimp only
  split_ifs <;> rfl

theorem processLeaf_part_references (allowed : List String) (s : AggState)
    (leaf : LeafRecord) :
    (processLeaf allowed s leaf).part_references =
      if leaf.note.trim ≠ "" then
        setList s.part_references leaf.part_id
          (getList s.part_references leaf.part_id ++ [leaf.note])
      else s.part_references := by
  unfold processLeaf
  dsimp only
  split_ifs <;> rfl

theorem processLeaf_cut_lists (allowed : List String) (s : AggState) (leaf : LeafRecord) :
    (processLeaf allowed s leaf).cut_lists =
      if leaf.part_type = "CtL" ∧ leaf.cut_length.isSome then
        setList s.cut_lists leaf.part_id
          (addCutEntry (getList s.cut_lists leaf.part_id) leaf.cumulative_qty
            (leaf.cut_length.getD 0))
      else s.cut_lists := by
  unfold processLeaf
  dsimp only
  split_ifs <;> rfl

theorem processLeaf_ifab_lists (allowed : List String) (s : AggState) (leaf : LeafRecord) :
    (processLeaf allowed s leaf).internal_fab_cut_lists =
      if ¬(leaf.part_type = "CtL" ∧ leaf.cut_length.isSome) ∧
          (leaf.from_internal_fab_parent ∧ leaf.cut_length.isSome) ∧
          leaf.unit ∈ allowed then
        setList s.internal_fab_cut_lists leaf.part_id
          (addIfabEntry (getList s.internal_fab_cut_lists leaf.part_id)
            (pyOrOne leaf.quantity) (leaf.cut_length.getD 0) leaf.unit)
      else s.internal_fab_cut_lists := by
  unfold processLeaf
  dsimp only
  split_ifs <;> first
    | rfl
    | (exfalso; tauto)

theorem leafContrib_regular {leaf : LeafRecord} (h : isRegular leaf) :
    leafContrib leaf = leaf.cumulative_qty := by
  unfold leafContrib
  rw [if_neg h.1, if_neg h.2]

theorem fold_totals_getD (allowed : List String) (leaves : List LeafRecord)
    (s : AggState) (pid : Nat) :
    (((leaves.foldl (processLeaf allowed) s).totals.lookup pid).getD 0) =
      ((s.totals.lookup pid).getD 0) +
        ((leaves.filter (fun r => r.part_id = pid)).map leafContrib).sum := by
  induction leaves generalizing s with
  | nil => simp
  | cons r rest ih =>
    simp only [List.foldl_cons, ih, processLeaf_totals, addTotal_lookup]
    by_cases h : pid = r.part_id
    · rw [if_pos h, Option.getD_some,
        List.filter_cons_of_pos (by simp [h.symm]), List.map_cons, List.sum_cons,
        add_assoc, h]
    · rw [if_neg h, List.filter_cons_of_neg (by simp; exact fun hc => h hc.symm)]

theorem fold_totals_isSome (allowed : List String) (leaves : List LeafRecord)
    (s : AggState) (pid : Nat) :
    (((leaves.foldl (processLeaf allowed) s).totals.lookup pid).isSome) = true ↔
      ((s.totals.lookup pid).isSome = true ∨ ∃ r ∈ leaves, r.part_id = pid) := by
  induction leaves generalizing s with
  | nil => simp
  | cons r rest ih =>
    simp only [List.foldl_cons, ih, processLeaf_totals, addTotal_lookup]
    by_cases h : pid = r.part_id
    · rw [if_pos h]
      constructor
      · intro _
        exact Or.inr ⟨r, List.mem_cons_self r rest, h.symm⟩
      · intro _
        exact Or.inl rfl
    · have h2 : ¬ r.part_id = pid := fun hc => h hc.symm
      simp only [if_neg h]
      constructor
      · rintro (hs | ⟨r1, hr1, hr2⟩)
        · exact Or.inl hs
        · exact Or.inr ⟨r1, List.mem_cons_of_mem _ hr1, hr2⟩
      · rintro (hs | ⟨r1, hr1, hr2⟩)
        · exact Or.inl hs
        · rcases List.mem_cons.1 hr1 with rfl | hr1
          · exact absurd hr2 h2
          · exact Or.inr ⟨r1, hr1, hr2⟩

theorem fold_refs (allowed : List String) (leaves : List LeafRecord)
    (s : AggState) (pid : Nat) :
    getList (leaves.foldl (processLeaf allowed) s).part_references pid =
      getList s.part_references pid ++
        (((leaves.filter (fun r => r.part_id = pid)).map (fun r => r.note)).filter
          (fun n => n.trim ≠ "")) := by
  induction leaves generalizing s with
  | nil => simp
  | cons r rest ih =>
    simp only [List.foldl_cons, ih, processLeaf_part_references]
    by_cases ht : r.note.trim = ""
    · rw [if_neg (by simpa using ht)]
      by_cases h : r.part_id = pid
      · rw [List.filter_cons_of_pos (by simp [h]), List.map_cons,
          List.filter_cons_of_neg (by simp [ht])]
      · rw [List.filter_cons_of_neg (by simp [h])]
    · rw [if_pos (by simpa using ht)]
      by_cases h : r.part_id = pid
      · rw [List.filter_cons_of_pos (by simp [h]), List.map_cons,
          List.filter_cons_of_pos (by simp [ht])]
        unfold getList
        rw [setList_lookup, if_pos h.symm, Option.getD_some, List.append_assoc,
          List.singleton_append, h]
      · rw [List.filter_cons_of_neg (by simp [h])]
        unfold getList
        rw [setList_lookup, if_neg (fun hc => h hc.symm)]

theorem infoInv_processLeaf (allowed : List String) {s : AggState} (leaf : LeafRecord)
    (h : InfoInv s) : InfoInv (processLeaf allowed s leaf) := by
  intro k v hv
  rw [processLeaf_part_info, putFirst_lookup] at hv
  by_cases hk : k = leaf.part_id
  · rw [if_pos hk] at hv
    cases hv
    cases hl : List.lookup leaf.part_id s.part_info with
    | none => simp [hl, mkRowInfo, hk]
    | some w => simp [hl, h leaf.part_id w hl, hk]
  · rw [if_neg hk] at hv
    exact h k v hv

theorem infoInv_fold (allowed : List String) (leaves : List LeafRecord) {s : AggState}
    (h : InfoInv s) : InfoInv (leaves.foldl (processLeaf allowed) s) := by
  induction leaves generalizing s with
  | nil => exact h
  | cons r rest ih => exact ih (infoInv_processLeaf allowed r h)

theorem keysInv_processLeaf (allowed : List String) {s : AggState} (leaf : LeafRecord)
    (h : KeysInv s) : KeysInv (processLeaf allowed s leaf) := by
  intro k hk
  rw [processLeaf_part_info, putFirst_lookup]
  by_cases hkey : k = leaf.part_id
  · simp [hkey]
  · rw [if_neg hkey]
    apply h
    rw [processLeaf_totals, addTotal_lookup, if_neg hkey] at hk
    rw [processLeaf_cut_lists] at hk
    rw [processLeaf_ifab_lists] at hk
    rcases hk with hk | hk | hk
    · exact Or.inl hk
    · refine Or.inr (Or.inl ?_)
      by_cases hc : leaf.part_type = "CtL" ∧ leaf.cut_length.isSome
      · rwa [if_pos hc, setList_lookup, if_neg hkey] at hk
      · rwa [if_neg hc] at hk
    · refine Or.inr (Or.inr ?_)
      split at hk
      · rwa [setList_lookup, if_neg hkey] at hk
      · exact hk

theorem keysInv_fold (allowed : List String) (leaves : List LeafRecord) {s : AggState}
    (h : KeysInv s) : KeysInv (leaves.foldl (processLeaf allowed) s) := by
  induction leaves generalizing s with
  | nil => exact h
  | cons r rest ih => exact ih (keysInv_processLeaf allowed r h)

theorem emptyAggState_infoInv : InfoInv emptyAggState := by
  intro k v hv
  simp [emptyAggState, List.lookup] at hv

theorem emptyAggState_keysInv : KeysInv emptyAggState := by
  intro k hk
  simp [emptyAggState, List.lookup] at hk

/-! ### Key collection and sorting lemmas -/

theorem firstDedupAux_mem (l : List Nat) :
    ∀ (seen : List Nat) (a : Nat), a ∈ firstDedupAux seen l ↔ a ∈ l ∧ a ∉ seen := by
  induction l with
  | nil => intro seen a; simp [firstDedupAux]
  | cons k rest ih =>
    intro seen a
    by_cases hk : k ∈ seen
    · rw [firstDedupAux, if_pos hk, ih]
      constructor
      · rintro ⟨h1, h2⟩
        exact ⟨List.mem_cons_of_mem _ h1, h2⟩
      · rintro ⟨h1, h2⟩
        rcases List.mem_cons.1 h1 with rfl | h1
        · exact absurd hk h2
        · exact ⟨h1, h2⟩
    · rw [firstDedupAux, if_neg hk]
      constructor
      · intro h
        rcases List.mem_cons.1 h with rfl | h
        · exact ⟨List.mem_cons_self _ _, hk⟩
        · obtain ⟨h1, h2⟩ := (ih (k :: seen) a).1 h
          exact ⟨List.mem_cons_of_mem _ h1, fun hc => h2 (List.mem_cons_of_mem _ hc)⟩
      · rintro ⟨h1, h2⟩
        rcases List.mem_cons.1 h1 with rfl | h1
        · exact List.mem_cons_self _ _
        · by_cases hak : a = k
          · subst hak
            exact List.mem_cons_self _ _
          · exact List.mem_cons_of_mem _
              ((ih (k :: seen) a).2 ⟨h1, by simp [hak, h2]⟩)

theorem firstDedupAux_nodup (l : List Nat) : ∀ seen : List Nat,
    (firstDedupAux seen l).Nodup := by
  induction l with
  | nil => intro seen; simp [firstDedupAux]
  | cons k rest ih =>
    intro seen
    by_cases hk : k ∈ seen
    · rw [firstDedupAux, if_pos hk]
      exact ih seen
    · rw [firstDedupAux, if_neg hk]
      refine List.nodup_cons.2 ⟨?_, ih (k :: seen)⟩
      intro hc
      exact ((firstDedupAux_mem rest (k :: seen) k).1 hc).2 (List.mem_cons_self _ _)

theorem firstDedup_mem (l : List Nat) (a : Nat) : a ∈ firstDedup l ↔ a ∈ l := by
  rw [firstDedup, firstDedupAux_mem]
  simp

theorem firstDedup_nodup (l : List Nat) : (firstDedup l).Nodup :=
  firstDedupAux_nodup l []

theorem insByIpn_perm (info : List (Nat × RowInfo)) (k : Nat) (l : List Nat) :
    List.Perm (insByIpn info k l) (k :: l) := by
  induction l with
  | nil => simp [insByIpn]
  | cons k1 rest ih =>
    rw [insByIpn]
    split
    · exact ((ih.cons k1).trans (List.Perm.swap k k1 rest))
    · exact List.Perm.refl _

theorem sortKeysByIpn_perm_aux (info : List (Nat × RowInfo)) (keys : List Nat) :
    ∀ acc : List Nat,
      List.Perm (keys.foldl (fun acc k => insByIpn info k acc) acc) (keys ++ acc) := by
  induction keys with
  | nil => intro acc; simp
  | cons k rest ih =>
    intro acc
    simp only [List.foldl_cons, List.cons_append]
    exact ((ih (insByIpn info k acc)).trans
      (((insByIpn_perm info k acc).append_left rest).trans List.perm_middle))

theorem sortKeysByIpn_perm (info : List (Nat × RowInfo)) (keys : List Nat) :
    List.Perm (sortKeysByIpn info keys) keys := by
  simpa using sortKeysByIpn_perm_aux info keys []

theorem nodup_filter_eq_singleton {l : List Nat} {pid : Nat} (hn : l.Nodup)
    (hm : pid ∈ l) : l.filter (fun k => k = pid) = [pid] := by
  induction l with
  | nil => cases hm
  | cons k rest ih =>
    rcases List.mem_cons.1 hm with heq | hm
    · rw [List.filter_cons_of_pos (by simp [heq.symm])]
      have hrest : rest.filter (fun k2 => k2 = pid) = [] := by
        rw [List.filter_eq_nil_iff]
        intro a ha
        simp only [decide_eq_true_eq]
        intro hc
        rw [hc, heq] at ha
        exact (List.nodup_cons.1 hn).1 ha
      rw [hrest, ← heq]
    · have hne : ¬ k = pid := by
        intro hc
        subst hc
        exact (List.nodup_cons.1 hn).1 hm
      rw [List.filter_cons_of_neg (by simp [hne])]
      exact ih (List.nodup_cons.1 hn).2 hm

/-- Every key of `all_keys` has a `part_info` entry, given the accumulator
invariant. -/
theorem allKeysRaw_info_isSome {s : AggState} (hkeys : KeysInv s) {k : Nat}
    (hk : k ∈ allKeysRaw s) : (s.part_info.lookup k).isSome := by
  unfold allKeysRaw at hk
  rcases List.mem_append.1 hk with hk2 | hk3
  · rcases List.mem_append.1 hk2 with hka | hkb
    · exact hkeys k (Or.inl ((mem_map_fst_iff_lookup _ _).1 hka))
    · refine hkeys k (Or.inr (Or.inl ?_))
      have hsub : k ∈ s.cut_lists.map Prod.fst :=
        List.map_subset _ (List.filter_subset' _) hkb
      exact (mem_map_fst_iff_lookup _ _).1 hsub
  · refine hkeys k (Or.inr (Or.inr ?_))
    have hsub : k ∈ s.internal_fab_cut_lists.map Prod.fst :=
      List.map_subset _ (List.filter_subset' _) hk3
    exact (mem_map_fst_iff_lookup _ _).1 hsub

/-- General aggregation behaviour for a part all of whose leaf records fall
under the regular rule: the output contains exactly one row for that part, its
`total_qty` is the sum of the per-record cumulative quantities, and its
`reference` joins the non-blank note strings of all its records in order. -/
theorem dedup_regular_row (db : DB) (st : DedupState) (leaves : List LeafRecord)
    (pid : Nat) (hreg : ∀ r ∈ leaves, r.part_id = pid → isRegular r)
    (hmem : ∃ r ∈ leaves, r.part_id = pid) :
    ∃ row : Row,
      (deduplicate_and_sum db st leaves).1.filter (fun r => r.part_id = pid) = [row] ∧
      row.total_qty =
        ((leaves.filter (fun r => r.part_id = pid)).map (fun r => r.cumulative_qty)).sum ∧
      row.reference = String.intercalate ", "
        (((leaves.filter (fun r => r.part_id = pid)).map (fun r => r.note)).filter
          (fun n => n.trim ≠ "")) := by
  set allowed := st.ifab_units.getD [] with hallowed
  set s := leaves.foldl (processLeaf allowed) emptyAggState with hs
  set enable := st.enable_ifab_cuts.getD false with henable
  set keys := sortKeysByIpn s.part_info (firstDedup (allKeysRaw s)) with hkeys
  have hrows : (deduplicate_and_sum db st leaves).1 = keys.map (buildRow s enable) := rfl
  have hinfoInv : InfoInv s := infoInv_fold allowed leaves emptyAggState_infoInv
  have hkeysInv : KeysInv s := keysInv_fold allowed leaves emptyAggState_keysInv
  have hperm : List.Perm keys (firstDedup (allKeysRaw s)) :=
    sortKeysByIpn_perm s.part_info (firstDedup (allKeysRaw s))
  have hnodup : keys.Nodup := hperm.nodup_iff.2 (firstDedup_nodup _)
  have htotSome : ((s.totals.lookup pid).isSome) = true :=
    (fold_totals_isSome allowed leaves emptyAggState pid).2
      (Or.inr hmem)
  have hpidraw : pid ∈ allKeysRaw s := by
    unfold allKeysRaw
    exact List.mem_append.2 (Or.inl (List.mem_append.2
      (Or.inl ((mem_map_fst_iff_lookup _ _).2 htotSome))))
  have hpid : pid ∈ keys := hperm.mem_iff.2 ((firstDedup_mem _ _).2 hpidraw)
  have hpartid : ∀ k ∈ keys, (buildRow s enable k).part_id = k := by
    intro k hk
    have hkraw : k ∈ allKeysRaw s := (firstDedup_mem _ _).1 (hperm.mem_iff.1 hk)
    obtain ⟨v, hv⟩ := Option.isSome_iff_exists.1 (allKeysRaw_info_isSome hkeysInv hkraw)
    have hrow : (buildRow s enable k).part_id =
        ((s.part_info.lookup k).getD default).part_id := rfl
    rw [hrow, hv, Option.getD_some]
    exact hinfoInv k v hv
  refine ⟨buildRow s enable pid, ?_, ?_, ?_⟩
  · rw [hrows, List.filter_map]
    have hcong : keys.filter ((fun r : Row => decide (r.part_id = pid)) ∘ buildRow s enable)
        = keys.filter (fun k => decide (k = pid)) := by
      refine List.filter_congr (fun k hk => ?_)
      simp only [Function.comp_apply, decide_eq_decide]
      rw [hpartid k hk]
    rw [hcong, nodup_filter_eq_singleton hnodup hpid, List.map_singleton]
  · have hq : (buildRow s enable pid).total_qty = (s.totals.lookup pid).getD 0 := rfl
    rw [hq, hs, fold_totals_getD]
    have hzero : (List.lookup pid emptyAggState.totals).getD 0 = 0 := rfl
    rw [hzero, zero_add]
    refine congrArg List.sum (List.map_congr_left (fun r hr => ?_))
    have hmemr := List.mem_filter.1 hr
    exact leafContrib_regular (hreg r hmemr.1 (by simpa using hmemr.2))
  · have hr : (buildRow s enable pid).reference =
        String.intercalate ", " (getList s.part_references pid) := rfl
    rw [hr, hs, fold_refs]
    have hzero : getList emptyAggState.part_references pid = [] := rfl
    rw [hzero, List.nil_append]

/-- Under the cumulative-quantity invariant, a node reached by a descent path
carries the start node's cumulative quantity times the product of the path's
edge quantities. -/
theorem cumok_path_prod : ∀ {t n : TreeNode} {qs : List ℚ}, PathTo t n qs →
    CumOK t → n.data.cumulative_qty = t.data.cumulative_qty * qs.prod := by
  intro t n qs hp
  induction hp with
  | refl t => intro _; simp
  | step t q hc hq hp ih =>
    intro h
    cases t with
    | mk d cs =>
      obtain ⟨q2, hq2, hcum⟩ := h.children_qty _ hc
      rw [hq] at hq2
      cases hq2
      rw [ih (h.children_ok _ hc), hcum, List.prod_cons,
        show (TreeNode.mk d cs).data = d from rfl]
      ring

/-! ## Claim theorems -/

/-- C5: `categorize_part` is evaluated in priority order: a top-level part
returns `"TLA"` whatever every other argument is; otherwise an assembly whose
category id is in the configured fabrication set and whose default supplier is
internal returns `"Internal Fab"`, and an assembly with a default supplier
that is not internal returns `"Purchased Assy"` (the Internal Fab rule cannot
match such an assembly, since it requires an internal supplier).  Category ids
are the positive database pks (`hc0` excludes the Python-falsy id `0`). -/
theorem claim_C5_categorizer_priority :
    (∀ (part_name : String) (is_assembly : Bool) (ds : Option Nat) (isup : List Nat)
        (cat : Option Nat) (cm : List (String × List Nat)) (notes : Option String),
      categorize_part part_name is_assembly true ds isup cat cm notes = "TLA")
    ∧ (∀ (part_name : String) (ds : Nat) (isup : List Nat) (c : Nat)
        (cm : List (String × List Nat)) (notes : Option String),
      c ≠ 0 → c ∈ cmGet cm "fabrication" → ds ∈ isup →
      categorize_part part_name true false (some ds) isup (some c) cm notes =
        "Internal Fab")
    ∧ (∀ (part_name : String) (ds : Nat) (isup : List Nat) (cat : Option Nat)
        (cm : List (String × List Nat)) (notes : Option String),
      ds ∉ isup →
      categorize_part part_name true false (some ds) isup cat cm notes =
        "Purchased Assy") := by
  refine ⟨fun _ _ _ _ _ _ _ => rfl, ?_, ?_⟩
  · intro part_name ds isup c cm notes hc0 hfab hds
    have hne : cmGet cm "fabrication" ≠ [] := List.ne_nil_of_mem hfab
    unfold categorize_part
    simp [hne, hc0, hfab, hds, pyTruthyNat]
  · intro part_name ds isup cat cm notes hds
    unfold categorize_part
    simp [hds, pyTruthyNat]

/-- Witness for C5 at concrete inputs: a top-level assembly with internal
supplier and fabrication category still gets `"TLA"`; the same non-top-level
assembly gets `"Internal Fab"`; with a non-internal supplier it gets
`"Purchased Assy"`. -/
theorem claim_C5_witness :
    categorize_part "p" true true (some 9) [9] (some 5) [("fabrication", [5])] none
      = "TLA" ∧
    categorize_part "p" true false (some 9) [9] (some 5) [("fabrication", [5])] none
      = "Internal Fab" ∧
    categorize_part "p" true false (some 8) [9] (some 5) [("fabrication", [5])] none
      = "Purchased Assy" :=
  ⟨claim_C5_categorizer_priority.1 "p" true (some 9) [9] (some 5)
      [("fabrication", [5])] none,
    claim_C5_categorizer_priority.2.1 "p" 9 [9] 5 [("fabrication", [5])] none
      (by decide) (by decide) (by decide),
    claim_C5_categorizer_priority.2.2 "p" 8 [9] (some 5) [("fabrication", [5])] none
      (by decide)⟩

/-- C8: for a non-assembly part whose (positive) category id is in the
configured cut-to-length set, with non-empty category mappings,
`categorize_part` returns `"CtL"` exactly when a length can be extracted from
the BOM item notes, and `"Fab"` otherwise; both outcomes are plain return
values (the embedding is a total function, no exception). -/
theorem claim_C8_ctl_fallback :
    ∀ (part_name : String) (c : Nat) (isup : List Nat) (ds : Option Nat)
      (cm : List (String × List Nat)) (notes : Option String),
      c ≠ 0 → cm ≠ [] → c ∈ cmGet cm "cut_to_length" →
      categorize_part part_name false false ds isup (some c) cm notes =
        if (extractLengthOpt notes).isSome then "CtL" else "Fab" := by
  intro part_name c isup ds cm notes hc0 hcm hctl
  have hne : cmGet cm "cut_to_length" ≠ [] := List.ne_nil_of_mem hctl
  have hstr : pyTruthyStr notes = false → (extractLengthOpt notes).isSome = false := by
    intro h
    cases notes with
    | none => rfl
    | some s =>
      have hs : s = "" := by
        by_contra hs
        simp [pyTruthyStr, hs] at h
      subst hs
      simp [extractLengthOpt, extract_length_from_notes]
  unfold categorize_part
  cases hp : pyTruthyStr notes with
  | false => simp [hne, hc0, hcm, hctl, pyTruthyNat, hp, hstr hp]
  | true => simp [hne, hc0, hcm, hctl, pyTruthyNat, hp]

/-- Witness for C8: a cut-to-length part with note "35mm" is `"CtL"`, with an
unparsable note it is `"Fab"`. -/
theorem claim_C8_witness :
    categorize_part "p" false false none [] (some 7) [("cut_to_length", [7])]
      (some "35mm") = "CtL" ∧
    categorize_part "p" false false none [] (some 7) [("cut_to_length", [7])]
      (some "no length here") = "Fab" := by
  constructor
  · rw [claim_C8_ctl_fallback "p" 7 [] none [("cut_to_length", [7])] (some "35mm")
      (by decide) (by decide) (by decide)]
    with_unfolding_all rfl
  · rw [claim_C8_ctl_fallback "p" 7 [] none [("cut_to_length", [7])]
      (some "no length here") (by decide) (by decide) (by decide)]
    with_unfolding_all rfl

/-- C3: on every successful root traversal (level 0, parent quantity 1, as the
orchestration entry point calls it), the returned root node's
`cumulative_qty` is 1, and every node's children satisfy: child
`cumulative_qty` = parent `cumulative_qty` × child's own BOM edge quantity
(`CumOK`), i.e. every node carries the product of the edge quantities along
its path from the root. -/
theorem claim_C3_cumulative_invariant :
    ∀ (db : DB) (fuel : Nat) (part : Part) (md : Option Nat) (isup : List Nat)
      (cm : List (String × List Nat)) (stats : TravStats) (out : TreeNode × TravStats),
      traverse_bom db fuel part 0 1 none [] md isup cm none stats = .ok out →
      out.1.data.cumulative_qty = 1 ∧ CumOK out.1 ∧
        (∀ (n : TreeNode) (qs : List ℚ), PathTo out.1 n qs →
          n.data.cumulative_qty = qs.prod) := by
  intro db fuel part md isup cm stats out h
  obtain ⟨h1, h2⟩ := traverse_bom_cum fuel db part 0 1 none [] md isup cm none stats out h
  refine ⟨h1, h2, fun n qs hp => ?_⟩
  rw [cumok_path_prod hp h2, h1, one_mul]

/-- Witness for C3 on the concrete chain R -(2)-> A -(3)-> B: the traversal
succeeds, producing the tree with cumulative quantities 1, 2, 6 (= 2 × 3),
and the invariant follows by applying the theorem. -/
theorem claim_C3_witness :
    (traverse_bom db3 4 p3R 0 1 none [] none [] [] none
        { impCount := 0, maxLevel := 0 } =
      .ok (t3R, { impCount := 0, maxLevel := 2 })) ∧
    (t3R.data.cumulative_qty = 1 ∧ CumOK t3R) ∧
    (t3B.data.cumulative_qty = ([2, 3] : List ℚ).prod) :=
  have hmain := claim_C3_cumulative_invariant db3 4 p3R none [] []
    { impCount := 0, maxLevel := 0 } (t3R, { impCount := 0, maxLevel := 2 })
    (by with_unfolding_all rfl)
  have hpath : PathTo t3R t3B [2, 3] :=
    PathTo.step t3R 2 (List.mem_singleton.2 rfl) rfl
      (PathTo.step t3A 3 (List.mem_singleton.2 rfl) rfl (PathTo.refl t3B))
  ⟨by with_unfolding_all rfl, ⟨hmain.1, hmain.2.1⟩, hmain.2.2 t3B [2, 3] hpath⟩

/-- C4: (1) on an acyclic BOM graph (`Avoids`: no root-to-node path revisits
a part id — in particular a part reachable via two independent branches where
it is not its own ancestor), `traverse_bom` never raises the cycle error,
because each recursive call receives a copy of the ancestor-path visited set;
(2) aggregation produces exactly one row for a part whose records are all
regular, with `total_qty` the sum of the per-branch cumulative quantities and
the non-empty note strings of all branches joined into the reference string;
(3) concretely, the diamond fixture (per-branch cumulative quantities 8 and 6,
notes "N1"/"N2") flows through `get_flat_bom` without any cycle error to a
single row with `total_qty = 14` and `reference = "N1, N2"`. -/
theorem claim_C4_multipath :
    (∀ (fuel : Nat) (db : DB) (part : Part) (level : Nat) (pq : ℚ)
        (pipn : Option String) (visited : List Nat) (md : Option Nat)
        (isup : List Nat) (cm : List (String × List Nat)) (notes : Option String)
        (stats : TravStats) (i : String) (p l : Nat),
      Avoids db visited part →
      traverse_bom db fuel part level pq pipn visited md isup cm notes stats ≠
        .error (.circular i p l))
    ∧ (∀ (db : DB) (st : DedupState) (leaves : List LeafRecord) (pid : Nat),
        (∀ r ∈ leaves, r.part_id = pid → isRegular r) →
        (∃ r ∈ leaves, r.part_id = pid) →
        ∃ row : Row,
          (deduplicate_and_sum db st leaves).1.filter (fun r => r.part_id = pid) =
            [row] ∧
          row.total_qty =
            ((leaves.filter (fun r => r.part_id = pid)).map
              (fun r => r.cumulative_qty)).sum ∧
          row.reference = String.intercalate ", "
            (((leaves.filter (fun r => r.part_id = pid)).map (fun r => r.note)).filter
              (fun n => n.trim ≠ "")))
    ∧ ((match (get_flat_bom db4 initialDedupState 1 none false [] [] false none).1 with
        | .ok (rows, imp, ws, mdr) =>
            (rows.map (fun r => (r.part_id, r.total_qty, r.reference)), imp, ws, mdr)
        | .error _ => ([], 9, ([] : List CtlWarning), 9)) =
          ([(4, 14, "N1, N2")], 0, ([] : List CtlWarning), 2)) :=
  ⟨traverse_bom_no_cycle, dedup_regular_row, by with_unfolding_all rfl⟩

/-- Witness for C4: the acyclicity hypothesis holds for the single-part store
(discharged by constructor), so no fuel value can produce a cycle error
there; and the regular-rule aggregation applies to the concrete record
`rReg`, giving one row. -/
theorem claim_C4_witness :
    (traverse_bom dbLone 2 pLone 0 1 none [] none [] [] none
        { impCount := 0, maxLevel := 0 } ≠ .error (.circular "L" 7 0)) ∧
    (∃ row : Row,
      (deduplicate_and_sum emptyDb initialDedupState [rReg]).1.filter
          (fun r => r.part_id = 4) = [row] ∧
      row.total_qty =
        (([rReg].filter (fun r => r.part_id = 4)).map (fun r => r.cumulative_qty)).sum ∧
      row.reference = String.intercalate ", "
        ((([rReg].filter (fun r => r.part_id = 4)).map (fun r => r.note)).filter
          (fun n => n.trim ≠ ""))) :=
  ⟨claim_C4_multipath.1 2 dbLone pLone 0 1 none [] none [] [] none
      { impCount := 0, maxLevel := 0 } "L" 7 0
      (Avoids.node [] pLone (by simp)
        (fun item h => by
          rw [show get_bom_items dbLone pLone = [] from rfl] at h
          cases h)),
    claim_C4_multipath.2.1 emptyDb initialDedupState [rReg] 4
      (fun r hr _ => by
        rcases List.mem_singleton.1 hr with rfl
        constructor
        · rintro ⟨h1, h2⟩
          rw [show rReg.cut_length = none from rfl] at h2
          cases h2
        · rintro ⟨h1, h2⟩
          rw [show rReg.cut_length = none from rfl] at h2
          cases h2)
      ⟨rReg, List.mem_singleton.2 rfl, rfl⟩⟩

/-- C6: for a CtL record with a present cut length, the aggregator adds
`cumulative_qty × cut_length` to the part's total and merges a
`{quantity, length}` entry into the part's cut list by exact length equality
(adding to the first entry with the same length, otherwise appending a new
entry); concretely, cut lengths [35, 35, 50] at cumulative quantity 1 give
`total_qty = 120` and `cut_list = [{quantity 2, length 35},
{quantity 1, length 50}]`. -/
theorem claim_C6_ctl_aggregation :
    (∀ (allowed : List String) (s : AggState) (r : LeafRecord) (cl : ℚ),
      r.part_type = "CtL" → r.cut_length = some cl →
      (processLeaf allowed s r).totals =
        addTotal s.totals r.part_id (r.cumulative_qty * cl) ∧
      (processLeaf allowed s r).cut_lists =
        setList s.cut_lists r.part_id
          (addCutEntry (getList s.cut_lists r.part_id) r.cumulative_qty cl))
    ∧ (∀ (entries : List CutEntry) (qty len : ℚ),
        ((∀ e ∈ entries, e.length ≠ len) →
          addCutEntry entries qty len = entries ++ [{ quantity := qty, length := len }]) ∧
        (∀ (pre post : List CutEntry) (e : CutEntry), entries = pre ++ e :: post →
          e.length = len → (∀ e2 ∈ pre, e2.length ≠ len) →
          addCutEntry entries qty len =
            pre ++ { e with quantity := e.quantity + qty } :: post))
    ∧ ((deduplicate_and_sum emptyDb initialDedupState
          [rCtl 35, rCtl 35, rCtl 50]).1.map (fun r => (r.total_qty, r.cut_list)) =
        [(120, some [{ quantity := 2, length := 35 }, { quantity := 1, length := 50 }])]) := by
  refine ⟨?_, ?_, by with_unfolding_all rfl⟩
  · intro allowed s r cl ht hcl
    have hcond : r.part_type = "CtL" ∧ r.cut_length.isSome = true := ⟨ht, by rw [hcl]; rfl⟩
    constructor
    · rw [processLeaf_totals]
      unfold leafContrib
      rw [if_pos hcond, hcl]
      rfl
    · rw [processLeaf_cut_lists, if_pos hcond, hcl]
      rfl
  · intro entries qty len
    constructor
    · intro hne
      induction entries with
      | nil => rfl
      | cons e es ih =>
        rw [addCutEntry, if_neg (hne e (List.mem_cons_self e es))]
        rw [ih (fun e2 h2 => hne e2 (List.mem_cons_of_mem e h2))]
        rfl
    · intro pre post e hsplit hlen hpre
      subst hsplit
      induction pre with
      | nil =>
        rw [List.nil_append, addCutEntry, if_pos hlen]
        rfl
      | cons p ps ih =>
        rw [List.cons_append, addCutEntry,
          if_neg (hpre p (List.mem_cons_self p ps))]
        rw [ih (fun e2 h2 => hpre e2 (List.mem_cons_of_mem p h2))]
        rfl

/-- Witness for C6 applying the per-record rule at a concrete record and
state: one CtL record with cut length 35 at cumulative quantity 1. -/
theorem claim_C6_witness :
    (processLeaf [] emptyAggState (rCtl 35)).totals = addTotal [] 4 (1 * 35) ∧
    (processLeaf [] emptyAggState (rCtl 35)).cut_lists =
      setList [] 4 (addCutEntry (getList [] 4) 1 35) :=
  claim_C6_ctl_aggregation.1 [] emptyAggState (rCtl 35) 35 rfl rfl

/-- C7: for an internal-fab-child record with a present cut length whose unit
is in the allowed set, the aggregator adds `cut_length × piece_count` to the
total, where `piece_count` is the record's own per-occurrence quantity
defaulting to 1 (`pyOrOne`), and merges a `{count, piece_qty, unit}` entry
into `internal_fab_cut_list` keyed by the `(piece_qty, unit)` pair, summing
counts on a match and appending otherwise; concretely, three records with
cut length 35 and allowed unit "mm" give `total_qty = 105` and
`internal_fab_cut_list = [{count 3, piece_qty 35, unit "mm"}]`. -/
theorem claim_C7_internal_fab_rollup :
    (∀ (allowed : List String) (s : AggState) (r : LeafRecord) (cl : ℚ),
      r.from_internal_fab_parent = true → r.cut_length = some cl →
      r.part_type ≠ "CtL" → r.unit ∈ allowed →
      (processLeaf allowed s r).totals =
        addTotal s.totals r.part_id (cl * pyOrOne r.quantity) ∧
      (processLeaf allowed s r).internal_fab_cut_lists =
        setList s.internal_fab_cut_lists r.part_id
          (addIfabEntry (getList s.internal_fab_cut_lists r.part_id)
            (pyOrOne r.quantity) cl r.unit))
    ∧ (pyOrOne none = 1 ∧ ∀ q : ℚ, q ≠ 0 → pyOrOne (some q) = q)
    ∧ (∀ (entries : List IfabEntry) (cnt piece : ℚ) (u : String),
        ((∀ e ∈ entries, ¬(e.piece_qty = piece ∧ e.unit = u)) →
          addIfabEntry entries cnt piece u =
            entries ++ [{ count := cnt, piece_qty := piece, unit := u }]) ∧
        (∀ (pre post : List IfabEntry) (e : IfabEntry), entries = pre ++ e :: post →
          e.piece_qty = piece → e.unit = u →
          (∀ e2 ∈ pre, ¬(e2.piece_qty = piece ∧ e2.unit = u)) →
          addIfabEntry entries cnt piece u =
            pre ++ { e with count := e.count + cnt } :: post))
    ∧ ((deduplicate_and_sum emptyDb stMm [rIf "mm" 1, rIf "mm" 1, rIf "mm" 1]).1.map
          (fun r => (r.total_qty, r.internal_fab_cut_list)) =
        [(105, some [{ count := 3, piece_qty := 35, unit := "mm" }])]) := by
  refine ⟨?_, ⟨rfl, fun q hq => by simp [pyOrOne, hq]⟩, ?_, by with_unfolding_all rfl⟩
  · intro allowed s r cl hif hcl hct hu
    have hnotctl : ¬(r.part_type = "CtL" ∧ r.cut_length.isSome = true) :=
      fun hc => hct hc.1
    have hcond : r.from_internal_fab_parent = true ∧ r.cut_length.isSome = true :=
      ⟨hif, by rw [hcl]; rfl⟩
    constructor
    · rw [processLeaf_totals]
      unfold leafContrib
      rw [if_neg hnotctl, if_pos hcond, hcl]
      rfl
    · rw [processLeaf_ifab_lists, if_pos ⟨hnotctl, hcond, hu⟩, hcl]
      rfl
  · intro entries cnt piece u
    constructor
    · intro hne
      induction entries with
      | nil => rfl
      | cons e es ih =>
        rw [addIfabEntry, if_neg (hne e (List.mem_cons_self e es))]
        rw [ih (fun e2 h2 => hne e2 (List.mem_cons_of_mem e h2))]
        rfl
    · intro pre post e hsplit hp hu2 hpre
      subst hsplit
      induction pre with
      | nil =>
        rw [List.nil_append, addIfabEntry, if_pos ⟨hp, hu2⟩]
        rfl
      | cons p ps ih =>
        rw [List.cons_append, addIfabEntry,
          if_neg (hpre p (List.mem_cons_self p ps))]
        rw [ih (fun e2 h2 => hpre e2 (List.mem_cons_of_mem p h2))]
        rfl

/-- Witness for C7 at a concrete record and state: one internal-fab record
with cut length 35, unit "mm", allowed units {"mm"}. -/
theorem claim_C7_witness :
    (processLeaf ["mm"] emptyAggState (rIf "mm" 1)).totals =
      addTotal [] 5 (35 * pyOrOne none) ∧
    (processLeaf ["mm"] emptyAggState (rIf "mm" 1)).internal_fab_cut_lists =
      setList [] 5 (addIfabEntry (getList [] 5) (pyOrOne none) 35 "mm") :=
  claim_C7_internal_fab_rollup.1 ["mm"] emptyAggState (rIf "mm" 1) 35 rfl rfl
    (by decide) (by decide)

/-- A record that is not CtL contributes nothing to the CtL-notes pass. -/
theorem ctlNoteStep_skip (m : List (Nat × (List String × String))) {leaf : LeafRecord}
    (h : leaf.part_type ≠ "CtL") : ctlNoteStep m leaf = m := by
  unfold ctlNoteStep
  rw [if_neg (fun hc => h hc.1)]

/-- The CtL-notes pass leaves its accumulator unchanged when no record is
CtL-typed. -/
theorem ctlNotes_fold_id :
    ∀ (leaves : List LeafRecord) (m : List (Nat × (List String × String))),
      (∀ r ∈ leaves, r.part_type ≠ "CtL") → leaves.foldl ctlNoteStep m = m := by
  intro leaves
  induction leaves with
  | nil => intro m _; rfl
  | cons r rest ih =>
    intro m hm
    rw [List.foldl_cons, ctlNoteStep_skip m (hm r (List.mem_cons_self r rest))]
    exact ih m (fun r2 h2 => hm r2 (List.mem_cons_of_mem r h2))

/-- With no CtL record among the inputs, `deduplicate_and_sum` stores an
empty warning list. -/
theorem dedup_no_ctl_no_warnings (db : DB) (st : DedupState)
    (leaves : List LeafRecord) (h : ∀ r ∈ leaves, r.part_type ≠ "CtL") :
    (deduplicate_and_sum db st leaves).2.ctl_warnings = some [] := by
  show some (ctlWarningsFor db (leaves.foldl ctlNoteStep [])) = some []
  rw [ctlNotes_fold_id leaves [] h]
  rfl

/-- C2 amended: for an internal-fab-child record (present cut length, not
CtL-typed) whose unit is NOT in the allowed set, the aggregator adds
`cut_length × piece_count` (piece count = the record's own quantity or 1) to
the total — not the record's `cumulative_qty` — adds no cut-list or
internal-fab-cut-list entry, and (as for every non-CtL record) contributes no
unit-mismatch warning. -/
theorem claim_C2_amended :
    (∀ (allowed : List String) (s : AggState) (r : LeafRecord) (cl : ℚ),
      r.from_internal_fab_parent = true → r.cut_length = some cl →
      r.part_type ≠ "CtL" → r.unit ∉ allowed →
      (processLeaf allowed s r).totals =
        addTotal s.totals r.part_id (cl * pyOrOne r.quantity) ∧
      (processLeaf allowed s r).cut_lists = s.cut_lists ∧
      (processLeaf allowed s r).internal_fab_cut_lists = s.internal_fab_cut_lists)
    ∧ (∀ (db : DB) (st : DedupState) (leaves : List LeafRecord),
        (∀ r ∈ leaves, r.part_type ≠ "CtL") →
        (deduplicate_and_sum db st leaves).2.ctl_warnings = some []) := by
  refine ⟨?_, dedup_no_ctl_no_warnings⟩
  intro allowed s r cl hif hcl hct hu
  have hnotctl : ¬(r.part_type = "CtL" ∧ r.cut_length.isSome = true) := fun hc => hct hc.1
  have hcond : r.from_internal_fab_parent = true ∧ r.cut_length.isSome = true :=
    ⟨hif, by rw [hcl]; rfl⟩
  refine ⟨?_, ?_, ?_⟩
  · rw [processLeaf_totals]
    unfold leafContrib
    rw [if_neg hnotctl, if_pos hcond, hcl]
    rfl
  · rw [processLeaf_cut_lists, if_neg hnotctl]
  · rw [processLeaf_ifab_lists, if_neg (fun hc => hu hc.2.2)]

/-- Counterexample to C2 as stated: a unit-mismatched internal-fab record
with `cut_length = 35`, `quantity` absent and `cumulative_qty = 10` yields a
row total of `35` (`cut_length × 1`), not the record's `cumulative_qty`. -/
theorem claim_C2_counterexample :
    ((deduplicate_and_sum emptyDb stMm [rIf "kg" 10]).1.map (fun r => r.total_qty) =
      [35]) ∧
    ¬ ((deduplicate_and_sum emptyDb stMm [rIf "kg" 10]).1.map (fun r => r.total_qty) =
        [(rIf "kg" 10).cumulative_qty]) := by
  have h1 : (deduplicate_and_sum emptyDb stMm [rIf "kg" 10]).1.map
      (fun r => r.total_qty) = [35] := by with_unfolding_all rfl
  refine ⟨h1, fun h => ?_⟩
  rw [show (rIf "kg" 10).cumulative_qty = (10 : ℚ) from rfl] at h
  have h2 : ([35] : List ℚ) = [10] := h1.symm.trans h
  have h3 : (35 : ℚ) = 10 := List.head_eq_of_cons_eq h2
  norm_num at h3

/-- Witness for C2 (amended) at a concrete record and state: the
unit-mismatched record `rIf "kg" 10` against allowed units {"mm"}. -/
theorem claim_C2_witness :
    ((processLeaf ["mm"] emptyAggState (rIf "kg" 10)).totals =
      addTotal [] 5 (35 * pyOrOne none) ∧
      (processLeaf ["mm"] emptyAggState (rIf "kg" 10)).cut_lists = [] ∧
      (processLeaf ["mm"] emptyAggState (rIf "kg" 10)).internal_fab_cut_lists = []) ∧
    (deduplicate_and_sum emptyDb stMm [rIf "kg" 10]).2.ctl_warnings = some [] :=
  ⟨claim_C2_amended.1 ["mm"] emptyAggState (rIf "kg" 10) 35 rfl rfl (by decide)
      (by decide),
    claim_C2_amended.2 emptyDb stMm [rIf "kg" 10]
      (fun r hr => by
        rcases List.mem_singleton.1 hr with rfl
        decide)⟩

/-- Counterexample to C9 as stated: through the real pipeline, a
purchased-assembly node with a genuinely empty BOM (no depth limit in effect)
is emitted by the purchased-assembly branch of the flattener with
`assembly_no_children = false`, not `true` as the claim requires for every
assembly node with genuinely no BOM items. -/
theorem claim_C9_counterexample :
    (((match traverse_bom db9 3 p3R 0 1 none [] none [] [] none
        { impCount := 0, maxLevel := 0 } with
      | .ok (t, _) => get_leaf_parts_only 4 false t
      | .error _ => []) : List LeafRecord).map
        (fun r => (r.part_id, r.is_assembly, r.part_type, r.assembly_no_children,
          r.max_depth_exceeded)) =
      [(2, true, "Purchased Assy", false, false)]) ∧ (false : Bool) ≠ true :=
  ⟨by with_unfolding_all rfl, by decide⟩

/-- C9 amended: an assembly node with zero children reaching the flattener is
emitted as exactly one leaf record; when the node is a purchased assembly and
purchased assemblies are not expanded, the record comes from the
purchased-assembly branch and carries `assembly_no_children = false`
regardless of cause; every other such assembly gets the claimed distinction:
`assembly_no_children = not max_depth_exceeded` and `max_depth_exceeded`
carried through.  The traversal sets `max_depth_exceeded` on a node exactly
when the depth limit stopped the expansion of an assembly. -/
theorem claim_C9_amended :
    (∀ (fuel : Nat) (expand : Bool) (d : NodeData),
      d.is_assembly = true → d.part_type ≠ "Coml" → d.part_type ≠ "Fab" →
      d.part_type ≠ "CtL" →
      get_leaf_parts_only (fuel + 1) expand (TreeNode.mk d []) =
        (if d.part_type = "Purchased Assy" ∧ expand = false then [paLeaf d]
         else [ncLeaf d]) ∧
      (ncLeaf d).assembly_no_children = !d.max_depth_exceeded ∧
      (ncLeaf d).max_depth_exceeded = d.max_depth_exceeded ∧
      (paLeaf d).assembly_no_children = false)
    ∧ (∀ (db : DB) (fuel : Nat) (part : Part) (level : Nat) (pq : ℚ)
        (pipn : Option String) (visited : List Nat) (md : Option Nat)
        (isup : List Nat) (cm : List (String × List Nat)) (notes : Option String)
        (stats : TravStats) (out : TreeNode × TravStats),
      traverse_bom db (fuel + 1) part level pq pipn visited md isup cm notes stats =
        .ok out →
      out.1.data.max_depth_exceeded =
        ((match md with
          | some dd => decide (level ≥ dd)
          | none => false) && part.assembly)) := by
  constructor
  · intro fuel expand d ha h1 h2 h3
    refine ⟨?_, rfl, rfl, rfl⟩
    by_cases hp : d.part_type = "Purchased Assy"
    · by_cases he : expand
      · rw [if_neg (fun hc => (by simp [he] at hc : False))]
        unfold get_leaf_parts_only
        simp [h1, h2, h3, ha, hp, he]
      · rw [if_pos ⟨hp, by simpa using he⟩]
        unfold get_leaf_parts_only
        simp [h1, h2, h3, ha, hp, he]
    · rw [if_neg (fun hc => hp hc.1)]
      unfold get_leaf_parts_only
      simp [h1, h2, h3, ha, hp]
  · intro db fuel part level pq pipn visited md isup cm notes stats out h
    simp only [traverse_bom] at h
    split at h
    · cases h
    · split at h
      · split at h
        · cases h
        · cases h
          rfl
      · cases h
        rfl

/-- Witness for C9 (amended): the concrete purchased-assembly node dict is
emitted through the purchased-assembly branch; and the successful traversal
of the chain fixture marks its root `max_depth_exceeded = false` (no depth
limit and level 0). -/
theorem claim_C9_witness :
    (get_leaf_parts_only 1 false (TreeNode.mk nd9 []) =
      (if nd9.part_type = "Purchased Assy" ∧ (false : Bool) = false then [paLeaf nd9]
       else [ncLeaf nd9])) ∧
    (t3R.data.max_depth_exceeded =
      ((match (none : Option Nat) with
        | some dd => decide ((0 : Nat) ≥ dd)
        | none => false) && p3R.assembly)) :=
  ⟨(claim_C9_amended.1 0 false nd9 rfl (by decide) (by decide) (by decide)).1,
    claim_C9_amended.2 db3 3 p3R 0 1 none [] none [] [] none
      { impCount := 0, maxLevel := 0 } (t3R, { impCount := 0, maxLevel := 2 })
      (by with_unfolding_all rfl)⟩

/-- C10: `deduplicate_and_sum` is not a function of its `leaf_parts` argument
alone.  The allowed-units set and the enable flag live in the mutable
function-attribute state: the same record list aggregated before and after a
`get_flat_bom` call (which stores `ifab_units = {"mm"}` and
`enable_ifab_cuts = true` on the function object) yields different rows; and
a direct call on the initial state (no attribute ever set) behaves exactly as
if the allowed-units set were empty and the enable flag false. -/
theorem claim_C10_function_attribute_state :
    ((deduplicate_and_sum emptyDb initialDedupState [rIf "mm" 1]).1 ≠
      (deduplicate_and_sum emptyDb
        (get_flat_bom dbLone initialDedupState 7 none false [] [] true
          (some ["mm"])).2 [rIf "mm" 1]).1) ∧
    (∀ (db : DB) (leaves : List LeafRecord),
      (deduplicate_and_sum db initialDedupState leaves).1 =
        (deduplicate_and_sum db
          { ifab_units := some [], enable_ifab_cuts := some false,
            ctl_warnings := none } leaves).1) := by
  constructor
  · intro h
    have h1 : (deduplicate_and_sum emptyDb initialDedupState [rIf "mm" 1]).1.map
        (fun r => r.has_ifab_cut_field) = [false] := by with_unfolding_all rfl
    have h2 : (deduplicate_and_sum emptyDb
        (get_flat_bom dbLone initialDedupState 7 none false [] [] true
          (some ["mm"])).2 [rIf "mm" 1]).1.map
        (fun r => r.has_ifab_cut_field) = [true] := by with_unfolding_all rfl
    rw [h] at h1
    have h3 : ([true] : List Bool) = [false] := h2.symm.trans h1
    cases h3
  · intro db leaves
    rfl

/-- Counterexample to C1 as stated: with an empty data store the root part id
1 does not resolve, yet `get_flat_bom` returns the ordinary value
`([], 0, [], 0)` instead of propagating a failure — the claimed equivalence
"hard failure iff (not found or cycle)" is false at this input. -/
theorem claim_C1_counterexample :
    (emptyDb.findPart 1 = none) ∧
    ¬ (((get_flat_bom emptyDb initialDedupState 1 none false [] [] false
          none).1.isOk = false) ↔
        (emptyDb.findPart 1 = none ∨
          ∃ part, emptyDb.findPart 1 = some part ∧ ∃ i p l,
            traverse_bom emptyDb (emptyDb.parts.length + 1) part 0 1 none [] none
              [] [] none { impCount := 0, maxLevel := 0 } =
              .error (.circular i p l))) := by
  refine ⟨rfl, fun h => ?_⟩
  have h2 := h.mpr (Or.inl rfl)
  rw [show (get_flat_bom emptyDb initialDedupState 1 none false [] [] false
      none).1.isOk = true from rfl] at h2
  cases h2

/-- C1 amended: `get_flat_bom` never propagates a hard failure to its caller.
Its result is always the ordinary (`.ok`) shape; an unresolvable root part id
and any traversal exception (including the cycle-detection `ValueError`) are
both caught and mapped to the sentinel `([], 0, [], 0)` with the attribute
state untouched; every other input produces the best-effort pipeline result
with warnings collected in the output. -/
theorem claim_C1_amended :
    ∀ (db : DB) (st : DedupState) (part_id : Nat) (md : Option Nat) (expand : Bool)
      (isup : List Nat) (cm : List (String × List Nat)) (en : Bool)
      (iu : Option (List String)),
      ((get_flat_bom db st part_id md expand isup cm en iu).1.isOk = true) ∧
      (db.findPart part_id = none →
        get_flat_bom db st part_id md expand isup cm en iu = (.ok ([], 0, [], 0), st)) ∧
      (∀ (part : Part) (e : TravErr), db.findPart part_id = some part →
        traverse_bom db (db.parts.length + 1) part 0 1 none [] md isup cm none
          { impCount := 0, maxLevel := 0 } = .error e →
        get_flat_bom db st part_id md expand isup cm en iu =
          (.ok ([], 0, [], 0), st)) := by
  intro db st part_id md expand isup cm en iu
  refine ⟨?_, ?_, ?_⟩
  · unfold get_flat_bom
    split
    · rfl
    · split
      · rfl
      · rfl
  · intro h
    unfold get_flat_bom
    rw [h]
  · intro part e hfp htr
    unfold get_flat_bom
    simp only [hfp, htr]

/-- Witness for C1 (amended) at the concrete empty store: part id 1 does not
resolve and the call returns the sentinel without raising. -/
theorem claim_C1_witness :
    (emptyDb.findPart 1 = none) ∧
    (get_flat_bom emptyDb initialDedupState 1 none false [] [] false none =
      (.ok ([], 0, [], 0), initialDedupState)) :=
  ⟨rfl,
    (claim_C1_amended emptyDb initialDedupState 1 none false [] [] false none).2.1 rfl⟩

end FlatBom
